import Mathlib

/-!
Verification development for the AutoNetLab repository
(`src/autonetlab/core/topology.py`, `src/autonetlab/core/config_manager.py`).

The Python code operates on dynamically typed values parsed from YAML/JSON.
We embed those values as the inductive type `Val` and translate each method
of `TopologyManager` / `ConfigManager` line by line, making the dynamic
behaviour of Python (`in`, subscripting, truthiness, `.get`, iteration,
`len`) explicit.  Exceptions are embedded with `Except`; the distinct error
messages the code raises become the structured constructors of `TopoError`.
-/

namespace AutoNetLab

/-- Embedding of the Python values a YAML/JSON parser can produce
(`None`, booleans, integers, strings, lists, dicts).  Dicts are modelled
as insertion-ordered association lists, as Python dicts are. -/
inductive Val where
  | vnull : Val
  | vbool : Bool → Val
  | vint : Int → Val
  | vstr : String → Val
  | vlist : List Val → Val
  | vdict : List (String × Val) → Val

mutual

/-- Decidable equality for `Val` (the `deriving` handler does not support
this nested inductive, so it is spelled out). -/
def Val.decEq : (a b : Val) → Decidable (a = b)
  | .vnull, .vnull => isTrue rfl
  | .vnull, .vbool _ => isFalse (fun h => Val.noConfusion h)
  | .vnull, .vint _ => isFalse (fun h => Val.noConfusion h)
  | .vnull, .vstr _ => isFalse (fun h => Val.noConfusion h)
  | .vnull, .vlist _ => isFalse (fun h => Val.noConfusion h)
  | .vnull, .vdict _ => isFalse (fun h => Val.noConfusion h)
  | .vbool _, .vnull => isFalse (fun h => Val.noConfusion h)
  | .vbool a, .vbool b =>
    if h : a = b then isTrue (by rw [h]) else isFalse (fun hh => h (Val.vbool.inj hh))
  | .vbool _, .vint _ => isFalse (fun h => Val.noConfusion h)
  | .vbool _, .vstr _ => isFalse (fun h => Val.noConfusion h)
  | .vbool _, .vlist _ => isFalse (fun h => Val.noConfusion h)
  | .vbool _, .vdict _ => isFalse (fun h => Val.noConfusion h)
  | .vint _, .vnull => isFalse (fun h => Val.noConfusion h)
  | .vint _, .vbool _ => isFalse (fun h => Val.noConfusion h)
  | .vint a, .vint b =>
    if h : a = b then isTrue (by rw [h]) else isFalse (fun hh => h (Val.vint.inj hh))
  | .vint _, .vstr _ => isFalse (fun h => Val.noConfusion h)
  | .vint _, .vlist _ => isFalse (fun h => Val.noConfusion h)
  | .vint _, .vdict _ => isFalse (fun h => Val.noConfusion h)
  | .vstr _, .vnull => isFalse (fun h => Val.noConfusion h)
  | .vstr _, .vbool _ => isFalse (fun h => Val.noConfusion h)
  | .vstr _, .vint _ => isFalse (fun h => Val.noConfusion h)
  | .vstr a, .vstr b =>
    if h : a = b then isTrue (by rw [h]) else isFalse (fun hh => h (Val.vstr.inj hh))
  | .vstr _, .vlist _ => isFalse (fun h => Val.noConfusion h)
  | .vstr _, .vdict _ => isFalse (fun h => Val.noConfusion h)
  | .vlist _, .vnull => isFalse (fun h => Val.noConfusion h)
  | .vlist _, .vbool _ => isFalse (fun h => Val.noConfusion h)
  | .vlist _, .vint _ => isFalse (fun h => Val.noConfusion h)
  | .vlist _, .vstr _ => isFalse (fun h => Val.noConfusion h)
  | .vlist xs, .vlist ys =>
    match Val.decEqList xs ys with
    | isTrue h => isTrue (by rw [h])
    | isFalse h => isFalse (fun hh => h (Val.vlist.inj hh))
  | .vlist _, .vdict _ => isFalse (fun h => Val.noConfusion h)
  | .vdict _, .vnull => isFalse (fun h => Val.noConfusion h)
  | .vdict _, .vbool _ => isFalse (fun h => Val.noConfusion h)
  | .vdict _, .vint _ => isFalse (fun h => Val.noConfusion h)
  | .vdict _, .vstr _ => isFalse (fun h => Val.noConfusion h)
  | .vdict _, .vlist _ => isFalse (fun h => Val.noConfusion h)
  | .vdict xs, .vdict ys =>
    match Val.decEqKV xs ys with
    | isTrue h => isTrue (by rw [h])
    | isFalse h => isFalse (fun hh => h (Val.vdict.inj hh))

/-- Decidable equality for lists of `Val`. -/
def Val.decEqList : (xs ys : List Val) → Decidable (xs = ys)
  | [], [] => isTrue rfl
  | [], _ :: _ => isFalse (fun h => List.noConfusion h)
  | _ :: _, [] => isFalse (fun h => List.noConfusion h)
  | x :: xs, y :: ys =>
    match Val.decEq x y, Val.decEqList xs ys with
    | isTrue h1, isTrue h2 => isTrue (by rw [h1, h2])
    | isFalse h1, _ => isFalse (fun hh => by injection hh with ha hb; exact h1 ha)
    | _, isFalse h2 => isFalse (fun hh => by injection hh with ha hb; exact h2 hb)

/-- Decidable equality for dict entry lists. -/
def Val.decEqKV : (xs ys : List (String × Val)) → Decidable (xs = ys)
  | [], [] => isTrue rfl
  | [], _ :: _ => isFalse (fun h => List.noConfusion h)
  | _ :: _, [] => isFalse (fun h => List.noConfusion h)
  | (k1, v1) :: xs, (k2, v2) :: ys =>
    if hk : k1 = k2 then
      match Val.decEq v1 v2, Val.decEqKV xs ys with
      | isTrue h1, isTrue h2 => isTrue (by rw [hk, h1, h2])
      | isFalse h1, _ =>
        isFalse (fun hh => by injection hh with ha hb; exact h1 (congrArg Prod.snd ha))
      | _, isFalse h2 => isFalse (fun hh => by injection hh with ha hb; exact h2 hb)
    else
      isFalse (fun hh => by injection hh with ha hb; exact hk (congrArg Prod.fst ha))

end

instance : DecidableEq Val := Val.decEq

/-- Python truthiness (`if not self.topology`): `None`, `False`, `0`, `""`,
`[]` and `{}` are falsy, everything else truthy. -/
def pyTruthy : Val → Bool
  | .vnull => false
  | .vbool b => b
  | .vint n => n != 0
  | .vstr s => !s.isEmpty
  | .vlist xs => !xs.isEmpty
  | .vdict kvs => !kvs.isEmpty

/-- Python hashability of parsed YAML/JSON values: `None`, booleans,
integers and strings are hashable; lists and dicts are not, and hashing
them (set membership, `set.add`, dict `in`) raises `TypeError`. -/
def pyHashable : Val → Bool
  | .vlist _ => false
  | .vdict _ => false
  | _ => true

/-- Whether the first character list is a prefix of the second. -/
def prefixOfList : List Char → List Char → Bool
  | [], _ => true
  | _ :: _, [] => false
  | a :: as, b :: bs => a == b && prefixOfList as bs

/-- Whether the needle occurs as a contiguous sublist of the haystack;
the empty needle occurs everywhere. -/
def containsSub : List Char → List Char → Bool
  | _, [] => true
  | [], _ :: _ => false
  | c :: rest, needle =>
    prefixOfList needle (c :: rest) || containsSub rest needle

/-- Python substring test (`sub in s` for strings): the empty string is a
substring of everything. -/
def pySubstr (s sub : String) : Bool :=
  containsSub s.toList sub.toList

/-- First-match lookup in an association list (Python dict subscript). -/
def dictLookup (kvs : List (String × Val)) (k : String) : Option Val :=
  match kvs with
  | [] => none
  | (k', v) :: rest => if k' == k then some v else dictLookup rest k

/-- Python `key in container` for a string key: dict membership is over
keys, list membership over elements, string membership is substring.
`none` models the `TypeError` Python raises on other receivers. -/
def pyContainsStr : Val → String → Option Bool
  | .vdict kvs, k => some (kvs.any (fun p => p.1 == k))
  | .vlist xs, k => some (xs.any (fun v => v == .vstr k))
  | .vstr s, k => some (pySubstr s k)
  | _, _ => none

/-- Python `x in container` for an arbitrary value `x`; `none` models
`TypeError` (e.g. `in` on an int receiver, a non-string needle on a
string receiver, or an unhashable needle on a dict receiver, which
Python hashes). -/
def pyContainsVal : Val → Val → Option Bool
  | .vdict kvs, x =>
    if pyHashable x then some (kvs.any (fun p => Val.vstr p.1 == x)) else none
  | .vlist xs, x => some (xs.any (fun v => v == x))
  | .vstr s, .vstr x => some (pySubstr s x)
  | .vstr _, _ => none
  | _, _ => none

/-- Python subscripting with a string key (`container['k']`); `none` models
the `TypeError` raised when the receiver is not a dict (a `KeyError` cannot
occur at the call sites, which guard with `in` first, but is also `none`). -/
def pySubscriptStr : Val → String → Option Val
  | .vdict kvs, k => dictLookup kvs k
  | _, _ => none

/-- Python iteration (`for x in v`): lists yield elements, dicts yield
their keys, strings yield their one-character substrings; `none` models the
`TypeError` raised for non-iterables. -/
def pyIter : Val → Option (List Val)
  | .vlist xs => some xs
  | .vdict kvs => some (kvs.map (fun p => Val.vstr p.1))
  | .vstr s => some (s.toList.map (fun c => Val.vstr (String.mk [c])))
  | _ => none

/-- Python `container.get(k, default)` (a dict method; `none` models the
`AttributeError` raised when the receiver is not a dict). -/
def pyGetD : Val → String → Val → Option Val
  | .vdict kvs, k, d => some ((dictLookup kvs k).getD d)
  | _, _, _ => none

/-- Python `len(v)`; `none` models the `TypeError` on unsized values. -/
def pyLen : Val → Option Nat
  | .vstr s => some s.length
  | .vlist xs => some xs.length
  | .vdict kvs => some kvs.length
  | _ => none

/-- Python `v.keys()` (dict method; `none` models `AttributeError`). -/
def dictKeys : Val → Option (List String)
  | .vdict kvs => some (kvs.map Prod.fst)
  | _ => none

/-- The distinct errors `TopologyManager` can raise, one constructor per
distinct error message in `topology.py`.  The first constructor is the
`ValueError` "No topology loaded"; `missingRequiredKeys` through
`unexpectedError` are the `TopologyValidationError`s of
`validate_topology` (with `unexpectedError` embedding the wrapper that
turns any other exception into a `TopologyValidationError`);
`deviceNotFound`/`sourceNotFound`/`targetNotFound` are the `ValueError`s
of the query methods; `pyError` is an uncaught `TypeError`/
`AttributeError` from dynamic typing; `fuelExhausted` is an artefact of
the fuel-indexed BFS loop, proved unreachable below. -/
inductive TopoError where
  | noTopologyLoaded
  | missingRequiredKeys (keys : List String)
  | devicesNotDict
  | deviceMissingProps (device : String) (props : List String)
  | connectionsNotList
  | connectionNotDict (i : Nat)
  | connectionMissingEndpoints (i : Nat)
  | endpointMissingDevice (i : Nat)
  | nonexistentDevice (i : Nat) (device : Val)
  | unexpectedError
  | deviceNotFound (device : Val)
  | sourceNotFound (device : String)
  | targetNotFound (device : String)
  | pyError
  | fuelExhausted
deriving DecidableEq

/-- Which errors are `TopologyValidationError`s (as opposed to the
`ValueError`s and uncaught exceptions). -/
def TopoError.isTopologyInvalid : TopoError → Bool
  | .missingRequiredKeys _ => true
  | .devicesNotDict => true
  | .deviceMissingProps _ _ => true
  | .connectionsNotList => true
  | .connectionNotDict _ => true
  | .connectionMissingEndpoints _ => true
  | .endpointMissingDevice _ => true
  | .nonexistentDevice _ _ => true
  | .unexpectedError => true
  | _ => false

/-- Whether an error is the "Connection #i references non-existent
device: d" `TopologyValidationError` (the only validation error whose
message names a device reference). -/
def TopoError.isNonexistentDevice : TopoError → Bool
  | .nonexistentDevice _ _ => true
  | _ => false

/-- Embedding of a Python list comprehension
`[k for k in keys if k not in t]`; `none` models a `TypeError` raised by
one of the membership tests. -/
def pyFilterNotIn (t : Val) : List String → Option (List String)
  | [] => some []
  | k :: rest =>
    match pyContainsStr t k with
    | none => none
    | some b =>
      match pyFilterNotIn t rest with
      | none => none
      | some l => some (if b then l else k :: l)

/-- Embedding of the device loop of `validate_topology` (topology.py
lines 123-129): for each device, the properties `type` and `management`
must be members of its configuration value. -/
def checkDeviceProps : List (String × Val) → Except TopoError Unit
  | [] => .ok ()
  | (device_name, device_config) :: rest =>
    match pyFilterNotIn device_config ["type", "management"] with
    | none => .error .unexpectedError
    | some missing_props =>
      if !missing_props.isEmpty then .error (.deviceMissingProps device_name missing_props)
      else checkDeviceProps rest

/-- Embedding of the endpoint loop of `validate_topology` (topology.py
lines 151-160): every endpoint must contain `device`, and its `device`
value must be a member of the *set* of declared device names.  The set
test hashes the device value, so an unhashable one (a list or dict)
raises `TypeError`, wrapped by the surrounding handler into the
"Unexpected error" `TopologyValidationError`. -/
def checkEndpoints (i : Nat) (device_names : List String) : List Val → Except TopoError Unit
  | [] => .ok ()
  | endpoint :: rest =>
    match pyContainsStr endpoint "device" with
    | none => .error .unexpectedError
    | some hasDev =>
      if !hasDev then .error (.endpointMissingDevice i)
      else
        match pySubscriptStr endpoint "device" with
        | none => .error .unexpectedError
        | some d =>
          if !(pyHashable d) then .error .unexpectedError
          else if !(device_names.any (fun k => Val.vstr k == d)) then
            .error (.nonexistentDevice i d)
          else checkEndpoints i device_names rest

/-- Embedding of the connection loop of `validate_topology` (topology.py
lines 139-160): each connection must be a dict with an `endpoints` field
whose endpoints all pass `checkEndpoints`. -/
def checkConnections (device_names : List String) : Nat → List Val → Except TopoError Unit
  | _, [] => .ok ()
  | i, connection :: rest =>
    match connection with
    | .vdict ckvs =>
      if !(ckvs.any (fun p => p.1 == "endpoints")) then .error (.connectionMissingEndpoints i)
      else
        match dictLookup ckvs "endpoints" with
        | none => .error .unexpectedError
        | some eps =>
          match pyIter eps with
          | none => .error .unexpectedError
          | some epList =>
            match checkEndpoints i device_names epList with
            | .error e => .error e
            | .ok _ => checkConnections device_names (i + 1) rest
    | _ => .error (.connectionNotDict i)

/-- Embedding of `TopologyManager.validate_topology` (topology.py lines
89-170).  The manager's state `self.topology` is `none` before any load;
the Python guard `if not self.topology` also rejects a loaded falsy
value.  Any exception other than `TopologyValidationError` escaping the
`try` block is wrapped into the `unexpectedError` validation error. -/
def validate_topology (topology : Option Val) : Except TopoError Bool :=
  match topology with
  | none => .error .noTopologyLoaded
  | some t =>
    if !pyTruthy t then .error .noTopologyLoaded
    else
      match pyFilterNotIn t ["name", "devices", "connections"] with
      | none => .error .unexpectedError
      | some missing_keys =>
        if !missing_keys.isEmpty then .error (.missingRequiredKeys missing_keys)
        else
          match pySubscriptStr t "devices" with
          | none => .error .unexpectedError
          | some devicesV =>
            match devicesV with
            | .vdict dkvs =>
              match checkDeviceProps dkvs with
              | .error e => .error e
              | .ok _ =>
                match pySubscriptStr t "connections" with
                | none => .error .unexpectedError
                | some connsV =>
                  match connsV with
                  | .vlist conns =>
                    match checkConnections (dkvs.map Prod.fst) 0 conns with
                    | .error e => .error e
                    | .ok _ => .ok true
                  | _ => .error .connectionsNotList
            | _ => .error .devicesNotDict

/-- Embedding of the `if not self.topology` precondition shared by the
query methods: `none` (never loaded) and falsy loaded values both raise
the "No topology loaded" `ValueError`. -/
def requireLoaded (topology : Option Val) : Except TopoError Val :=
  match topology with
  | none => .error .noTopologyLoaded
  | some t => if pyTruthy t then .ok t else .error .noTopologyLoaded

/-- Embedding of the generator
`any(endpoint.get('device') == device_name for endpoint in ...)`
(topology.py line 198).  `any` short-circuits, so an ill-typed endpoint
after the first match raises nothing. -/
def endpointsContainDevice (device_name : Val) : List Val → Except TopoError Bool
  | [] => .ok false
  | endpoint :: rest =>
    match pyGetD endpoint "device" .vnull with
    | none => .error .pyError
    | some d =>
      if d == device_name then .ok true
      else endpointsContainDevice device_name rest

/-- Embedding of the connection loop of `get_device_connections`
(topology.py lines 195-199): keep, in order, the connections whose
endpoints contain the device. -/
def filterConnections (device_name : Val) : List Val → Except TopoError (List Val)
  | [] => .ok []
  | connection :: rest =>
    match pyGetD connection "endpoints" (.vlist []) with
    | none => .error .pyError
    | some eps =>
      match pyIter eps with
      | none => .error .pyError
      | some epList =>
        match endpointsContainDevice device_name epList with
        | .error e => .error e
        | .ok found =>
          match filterConnections device_name rest with
          | .error e => .error e
          | .ok others => .ok (if found then connection :: others else others)

/-- Embedding of `TopologyManager.get_device_connections` (topology.py
lines 172-202).  The device name is a `Val` because the BFS feeds
arbitrary endpoint values back into this method. -/
def get_device_connections (topology : Option Val) (device_name : Val) :
    Except TopoError (List Val) :=
  match requireLoaded topology with
  | .error e => .error e
  | .ok t =>
    match pyGetD t "devices" (.vdict []) with
    | none => .error .pyError
    | some devices =>
      match pyContainsVal devices device_name with
      | none => .error .pyError
      | some mem =>
        if !mem then .error (.deviceNotFound device_name)
        else
          match pyGetD t "connections" (.vlist []) with
          | none => .error .pyError
          | some conns =>
            match pyIter conns with
            | none => .error .pyError
            | some connList => filterConnections device_name connList

/-- Python `set.add` on a set embedded as an insertion-ordered
duplicate-free list. -/
def setAdd (acc : List Val) (d : Val) : List Val :=
  if acc.contains d then acc else acc ++ [d]

/-- Embedding of the endpoint loop of `get_connected_devices`
(topology.py lines 222-225): add each truthy endpoint device value other
than the queried device to the set.  `set.add` hashes the value, so an
unhashable one (a list or dict) raises an uncaught `TypeError` there. -/
def collectFromEndpoints (device_name : Val) :
    List Val → List Val → Except TopoError (List Val)
  | acc, [] => .ok acc
  | acc, endpoint :: rest =>
    match pyGetD endpoint "device" .vnull with
    | none => .error .pyError
    | some d =>
      if pyTruthy d && !(d == device_name) then
        if pyHashable d then collectFromEndpoints device_name (setAdd acc d) rest
        else .error .pyError
      else collectFromEndpoints device_name acc rest

/-- Embedding of the connection loop of `get_connected_devices`
(topology.py lines 221-225). -/
def collectConnected (device_name : Val) :
    List Val → List Val → Except TopoError (List Val)
  | acc, [] => .ok acc
  | acc, connection :: rest =>
    match pyGetD connection "endpoints" (.vlist []) with
    | none => .error .pyError
    | some eps =>
      match pyIter eps with
      | none => .error .pyError
      | some epList =>
        match collectFromEndpoints device_name acc epList with
        | .error e => .error e
        | .ok acc' => collectConnected device_name acc' rest

/-- Embedding of `TopologyManager.get_connected_devices` (topology.py
lines 204-228).  The Python `set` is embedded as an insertion-ordered
duplicate-free list; its iteration order is unspecified in Python, and
the claims proved below depend only on its membership. -/
def get_connected_devices (topology : Option Val) (device_name : Val) :
    Except TopoError (List Val) :=
  match get_device_connections topology device_name with
  | .error e => .error e
  | .ok connections => collectConnected device_name [] connections

/-- Embedding of the inner `for next_device in connected_devices` loop of
the BFS (topology.py lines 281-290): either the target is found (with
the full path), or the visited set and queue are extended with the
unvisited neighbours. -/
def bfsScan (target_device : Val) (path : List Val) :
    List Val → List Val → List (Val × List Val) →
    Sum (List Val) (List Val × List (Val × List Val))
  | [], visited, queue => .inr (visited, queue)
  | next_device :: rest, visited, queue =>
    if next_device == target_device then .inl (path ++ [next_device])
    else if visited.contains next_device then bfsScan target_device path rest visited queue
    else bfsScan target_device path rest (visited ++ [next_device])
      (queue ++ [(next_device, path ++ [next_device])])

/-- Embedding of the `while queue` loop of the BFS (topology.py lines
275-290), indexed by fuel.  `none` means the fuel ran out; the fuel used
by `verify_connectivity_path` is proved sufficient below, so this value
is unreachable there. -/
def bfsLoop (topology : Option Val) (target_device : Val) :
    Nat → List (Val × List Val) → List Val → Option (Except TopoError (Bool × List Val))
  | 0, _, _ => none
  | _ + 1, [], _ => some (.ok (false, []))
  | fuel + 1, (current_device, path) :: rest, visited =>
    match get_connected_devices topology current_device with
    | .error e => some (.error e)
    | .ok connected_devices =>
      match bfsScan target_device path connected_devices visited rest with
      | .inl full_path => some (.ok (true, full_path))
      | .inr (visited', queue') => bfsLoop topology target_device fuel queue' visited'

/-- The endpoint `device` values of one connection, extracted along the
same dynamic access path the queries use (`connection.get('endpoints',
[])`, iterate, `endpoint.get('device')`); access steps that would raise
contribute nothing. -/
def connDeviceVals (c : Val) : List Val :=
  match pyGetD c "endpoints" (.vlist []) with
  | none => []
  | some eps =>
    match pyIter eps with
    | none => []
    | some epList => epList.filterMap (fun ep => pyGetD ep "device" .vnull)

/-- Every endpoint `device` value of every connection of the topology.
Every device the BFS can ever enqueue is in this list, which bounds the
fuel it needs. -/
def allEndpointVals (t : Val) : List Val :=
  match pyGetD t "connections" (.vlist []) with
  | none => []
  | some conns =>
    match pyIter conns with
    | none => []
    | some connList => (connList.map connDeviceVals).flatten

/-- The induced adjacency relation of §3/§4.1 of the specification: two
distinct device values are adjacent when some connection of the list
mentions both among its endpoint `device` values. -/
def InducedAdj (conns : List Val) (a b : Val) : Prop :=
  a ≠ b ∧ ∃ c ∈ conns, a ∈ connDeviceVals c ∧ b ∈ connDeviceVals c

/-- Reachability in the induced adjacency graph. -/
def Reachable (conns : List Val) (a b : Val) : Prop :=
  Relation.ReflTransGen (InducedAdj conns) a b

/-- Embedding of `TopologyManager.verify_connectivity_path` (topology.py
lines 230-294).  The `while` loop is run with fuel
`(allEndpointVals t).length + 2`, which the termination theorem below
proves sufficient, so the `fuelExhausted` default is unreachable. -/
def verify_connectivity_path (topology : Option Val) (source_device target_device : String) :
    Except TopoError (Bool × List Val) :=
  match requireLoaded topology with
  | .error e => .error e
  | .ok t =>
    match pyGetD t "devices" (.vdict []) with
    | none => .error .pyError
    | some devicesV =>
      match dictKeys devicesV with
      | none => .error .pyError
      | some device_names =>
        if !device_names.contains source_device then .error (.sourceNotFound source_device)
        else if !device_names.contains target_device then .error (.targetNotFound target_device)
        else if source_device == target_device then .ok (true, [Val.vstr source_device])
        else
          match bfsLoop topology (Val.vstr target_device) ((allEndpointVals t).length + 2)
              [(Val.vstr source_device, [Val.vstr source_device])] [Val.vstr source_device] with
          | some r => r
          | none => .error .fuelExhausted

mutual

/-- Python `repr(value)` for parsed YAML/JSON values (string escaping
inside container reprs is not claim-relevant and is embedded as plain
single quoting). -/
def pyRepr : Val → String
  | .vnull => "None"
  | .vbool true => "True"
  | .vbool false => "False"
  | .vint n => toString n
  | .vstr s => "'" ++ s ++ "'"
  | .vlist xs => "[" ++ pyReprList xs ++ "]"
  | .vdict kvs => "\x7b" ++ pyReprDict kvs ++ "\x7d"

/-- Comma-separated reprs of list elements. -/
def pyReprList : List Val → String
  | [] => ""
  | [v] => pyRepr v
  | v :: rest => pyRepr v ++ ", " ++ pyReprList rest

/-- Comma-separated reprs of dict entries. -/
def pyReprDict : List (String × Val) → String
  | [] => ""
  | [(k, v)] => "'" ++ k ++ "': " ++ pyRepr v
  | (k, v) :: rest => "'" ++ k ++ "': " ++ pyRepr v ++ ", " ++ pyReprDict rest

end

/-- Python `str(value)`: identity on strings, `repr`-like elsewhere. -/
def pyStr : Val → String
  | .vstr s => s
  | v => pyRepr v

/-- Embedding of `re.findall` with the pattern matching a literal open
brace, one or more non-brace characters (captured), and a close brace —
the unreplaced-variable scan of `render_template` (config_manager.py
line 141).  The second argument is `none` outside a candidate match and
`some acc` when inside one with the (reversed) captured characters so
far. -/
def findBracedAux : List Char → Option (List Char) → List String
  | [], _ => []
  | c :: rest, none =>
    if c = '\x7b' then findBracedAux rest (some []) else findBracedAux rest none
  | c :: rest, some acc =>
    if c = '\x7d' then
      if acc.isEmpty then findBracedAux rest none
      else String.mk acc.reverse :: findBracedAux rest none
    else if c = '\x7b' then findBracedAux rest (some [])
    else findBracedAux rest (some (c :: acc))

/-- Left-to-right non-overlapping replacement on character lists — the
semantics of Python `str.replace` for a nonempty pattern.  The fuel is
instantiated with the haystack length, which suffices because every
step consumes at least one character. -/
def replaceAux (pat rep : List Char) : Nat → List Char → List Char
  | 0, s => s
  | _ + 1, [] => []
  | fuel + 1, c :: rest =>
    if !pat.isEmpty && prefixOfList pat (c :: rest) then
      rep ++ replaceAux pat rep fuel ((c :: rest).drop pat.length)
    else
      c :: replaceAux pat rep fuel rest

/-- Embedding of Python `str.replace`; the call sites always pass a
nonempty pattern (a brace-wrapped placeholder). -/
def pyReplace (s pat rep : String) : String :=
  String.mk (replaceAux pat.toList rep.toList s.toList.length s.toList)

/-- Embedding of `ConfigManager.render_template` (config_manager.py
lines 118-149): for each (key, value) pair in insertion order, every
occurrence of the placeholder `\x7bkey\x7d` is replaced by `str(value)`;
the second component is the list of still-unreplaced variable names the
method merely warns about before returning the rendered text. -/
def render_template (template_content : String) (vars : List (String × Val)) :
    String × List String :=
  let rendered_content := vars.foldl
    (fun acc kv => pyReplace acc ("\x7b" ++ kv.1 ++ "\x7d") (pyStr kv.2)) template_content
  (rendered_content, findBracedAux rendered_content.toList none)

/-- Restatement of the specification's words for `render`: "for every
(key, value) pair in `variables`, replaces every literal occurrence of
the substring `\x7bkey\x7d` in the template with the value's textual
representation".  Stated separately from `render_template` so the
source's behaviour can be proved to refine it. -/
def renderSpec (template : String) (vars : List (String × Val)) : String :=
  vars.foldl (fun acc kv => pyReplace acc ("\x7b" ++ kv.1 ++ "\x7d") (pyStr kv.2)) template

/-- The errors `load_topology` can raise: the three documented ones
(`FileNotFoundError`, `ValueError` for an unsupported extension, and a
re-raised YAML/JSON parse error), plus the uncaught `AttributeError` /
`TypeError` the success-logging line raises when the parsed document is
not a dict (or its `devices` value has no `len`). -/
inductive LoadError where
  | fileNotFound (path : String)
  | parseError (msg : String)
  | unsupportedFormat (ext : String)
  | attributeError
  | typeError
deriving DecidableEq

/-- Embedding of `os.path.splitext(path)[1]`: the extension (with its
dot) of the final path component, where leading dots of the component do
not start an extension. -/
def splitextExt (path : String) : String :=
  let base := (path.toList.reverse.takeWhile (fun c => c ≠ '/')).reverse
  let rest := base.dropWhile (fun c => c = '.')
  match rest.reverse.span (fun c => c ≠ '.') with
  | (_, []) => ""
  | (revExt, _ :: _) => String.mk ('.' :: revExt.reverse)

/-- Embedding of Python `str.lower` for the ASCII extensions the loader
compares. -/
def strToLower (s : String) : String :=
  String.mk (s.toList.map Char.toLower)

/-- Embedding of the success-logging line of `load_topology`
(topology.py line 81): after `self.topology` has already been assigned,
`self.topology.get('devices', [])` raises `AttributeError` when the
parse result is not a dict, and `len(...)` raises `TypeError` when the
`devices` value is unsized — in both cases after the state change. -/
def postParseLog (v : Val) : Option Val × Except LoadError Val :=
  match v with
  | .vdict kvs =>
    match pyLen ((dictLookup kvs "devices").getD (.vlist [])) with
    | some _ => (some v, .ok v)
    | none => (some v, .error .typeError)
  | _ => (some v, .error .attributeError)

/-- Embedding of `TopologyManager.load_topology` (topology.py lines
40-87) as a pure state transformer.  The filesystem is the function
`fs` from path to contents; the external YAML/JSON parsers are the
function parameters.  The result is the new `self.topology` paired with
the returned value or raised error. -/
def load_topology (parseYaml parseJson : String → Except String Val)
    (fs : String → Option String) (topology : Option Val) (topology_file : String) :
    Option Val × Except LoadError Val :=
  match fs topology_file with
  | none => (topology, .error (.fileNotFound topology_file))
  | some content =>
    let file_extension := strToLower (splitextExt topology_file)
    if file_extension == ".yaml" || file_extension == ".yml" then
      match parseYaml content with
      | .error e => (topology, .error (.parseError e))
      | .ok v => postParseLog v
    else if file_extension == ".json" then
      match parseJson content with
      | .error e => (topology, .error (.parseError e))
      | .ok v => postParseLog v
    else (topology, .error (.unsupportedFormat file_extension))

/-- Decider for the §3 DeviceSpec invariant: the device configuration is
a mapping containing the keys `type` and `management`. -/
def isValidDeviceCfg : Val → Bool
  | .vdict cfg => cfg.any (fun q => q.1 == "type") && cfg.any (fun q => q.1 == "management")
  | _ => false

/-- Decider for the §3 Endpoint invariant relative to a list of declared
device names: the endpoint is a mapping whose `device` value is the name
of a declared device. -/
def isValidEndpoint (deviceNames : List String) : Val → Bool
  | .vdict ekvs =>
    match dictLookup ekvs "device" with
    | some (.vstr s) => deviceNames.contains s
    | _ => false
  | _ => false

/-- Decider for the §3 ConnectionSpec invariant: a mapping whose
`endpoints` value is a sequence of valid endpoints. -/
def isValidConnection (deviceNames : List String) : Val → Bool
  | .vdict ckvs =>
    match dictLookup ckvs "endpoints" with
    | some (.vlist eps) => eps.all (isValidEndpoint deviceNames)
    | _ => false
  | _ => false

/-- Decider for being a mapping value. -/
def isDictVal : Val → Bool
  | .vdict _ => true
  | _ => false

/-- Shape decider for endpoints as the query methods access them: the
connection is a mapping whose `endpoints` value (defaulting to `[]`)
is a sequence of mappings. -/
def isShapedConnection : Val → Bool
  | .vdict ckvs =>
    match (dictLookup ckvs "endpoints").getD (.vlist []) with
    | .vlist eps => eps.all isDictVal
    | _ => false
  | _ => false

/-- Decider used for the BFS claims: every truthy endpoint `device`
value of the connection names a declared device. -/
def connDevicesDeclared (deviceNames : List String) (c : Val) : Bool :=
  (connDeviceVals c).all (fun v =>
    !(pyTruthy v) ||
      match v with
      | .vstr s => deviceNames.contains s
      | _ => false)

/-- Decider used by `get_connected_devices`: every truthy endpoint
`device` value of the connection is hashable, so `set.add` never
raises on it.  (Falsy values are skipped by the truthiness guard before
being hashed.) -/
def connDevicesHashable (c : Val) : Bool :=
  (connDeviceVals c).all (fun v => !(pyTruthy v) || pyHashable v)

/-- Decider for the amended C7: every truthy endpoint `device` value of
the connection is a string.  On strings, Python equality, hashing and
set membership agree exactly with the structural equality of the
embedding; a truthy non-string value could either raise `TypeError`
from `set.add` (lists, dicts) or be conflated by Python's numeric
equality (`1` and `True` share one set slot). -/
def connDevicesStrings (c : Val) : Bool :=
  (connDeviceVals c).all (fun v =>
    !(pyTruthy v) ||
      match v with
      | .vstr _ => true
      | _ => false)

section Lemmas

/-- Membership of a key in an association list agrees with lookup
success. -/
theorem dictLookup_isSome_iff (kvs : List (String × Val)) (k : String) :
    (dictLookup kvs k).isSome = kvs.any (fun p => p.1 == k) := by
  induction kvs with
  | nil => rfl
  | cons p rest ih =>
    cases h : p.1 == k with
    | true => simp [dictLookup, h]
    | false => simp [dictLookup, h, ih]

/-- A successful lookup forces a nonempty association list. -/
theorem dictLookup_ne_nil {kvs : List (String × Val)} {k : String} {v : Val}
    (h : dictLookup kvs k = some v) : kvs ≠ [] := by
  intro he
  subst he
  simp [dictLookup] at h

/-- When every key of the list is a member of `t`, the missing-keys
comprehension returns the empty list. -/
theorem pyFilterNotIn_all_present (t : Val) (l : List String)
    (h : ∀ k ∈ l, pyContainsStr t k = some true) : pyFilterNotIn t l = some [] := by
  induction l with
  | nil => rfl
  | cons k rest ih =>
    have hk := h k (by simp)
    have hr := ih (fun x hx => h x (by simp [hx]))
    simp [pyFilterNotIn, hk, hr]

/-- On a dict receiver the missing-keys comprehension never raises and
computes a plain filter over the keys. -/
theorem pyFilterNotIn_vdict (root : List (String × Val)) (l : List String) :
    pyFilterNotIn (.vdict root) l =
      some (l.filter (fun k => !(root.any (fun p => p.1 == k)))) := by
  induction l with
  | nil => rfl
  | cons k rest ih =>
    cases hb : root.any (fun p => p.1 == k) with
    | true => simp [pyFilterNotIn, pyContainsStr, ih, List.filter_cons, hb]
    | false => simp [pyFilterNotIn, pyContainsStr, ih, List.filter_cons, hb]

/-- Bridging lemma between the set-membership test of the source and
`List.contains`. -/
theorem any_vstr_eq (names : List String) (s : String) :
    names.any (fun k => Val.vstr k == Val.vstr s) = names.contains s := by
  induction names with
  | nil => rfl
  | cons n rest ih =>
    simp only [List.any_cons, List.contains_cons, ih]
    congr 1
    simp [beq_iff_eq, Val.vstr.injEq, eq_comm]

/-- The device loop of `validate_topology` succeeds on § 3-valid device
configurations. -/
theorem checkDeviceProps_ok (dkvs : List (String × Val))
    (h : dkvs.all (fun p => isValidDeviceCfg p.2) = true) :
    checkDeviceProps dkvs = .ok () := by
  induction dkvs with
  | nil => rfl
  | cons p rest ih =>
    simp only [List.all_cons, Bool.and_eq_true] at h
    obtain ⟨hp, hrest⟩ := h
    obtain ⟨n, cfgv⟩ := p
    cases cfgv with
    | vdict cfg =>
      simp only [isValidDeviceCfg, Bool.and_eq_true] at hp
      have hfil : pyFilterNotIn (.vdict cfg) ["type", "management"] = some [] := by
        apply pyFilterNotIn_all_present
        intro k hk
        simp only [List.mem_cons, List.not_mem_nil, or_false] at hk
        rcases hk with rfl | rfl
        · simp [pyContainsStr, hp.1]
        · simp [pyContainsStr, hp.2]
      simp [checkDeviceProps, hfil, ih hrest]
    | vnull => simp [isValidDeviceCfg] at hp
    | vbool b => simp [isValidDeviceCfg] at hp
    | vint n' => simp [isValidDeviceCfg] at hp
    | vstr s => simp [isValidDeviceCfg] at hp
    | vlist xs => simp [isValidDeviceCfg] at hp

/-- The endpoint loop of `validate_topology` succeeds on § 3-valid
endpoints. -/
theorem checkEndpoints_ok (i : Nat) (names : List String) (eps : List Val)
    (h : eps.all (isValidEndpoint names) = true) :
    checkEndpoints i names eps = .ok () := by
  induction eps with
  | nil => rfl
  | cons ep rest ih =>
    simp only [List.all_cons, Bool.and_eq_true] at h
    obtain ⟨hep, hrest⟩ := h
    cases ep with
    | vdict ekvs =>
      cases hdl : dictLookup ekvs "device" with
      | none => simp [isValidEndpoint, hdl] at hep
      | some d =>
        cases d with
        | vstr s =>
          simp only [isValidEndpoint, hdl] at hep
          have hany : ekvs.any (fun p => p.1 == "device") = true := by
            rw [← dictLookup_isSome_iff, hdl]
            rfl
          have hmem : names.any (fun k => Val.vstr k == Val.vstr s) = true := by
            rw [any_vstr_eq, hep]
          simp [checkEndpoints, pyContainsStr, hany, pySubscriptStr, hdl, pyHashable, hmem,
            ih hrest]
        | vnull => simp [isValidEndpoint, hdl] at hep
        | vbool b => simp [isValidEndpoint, hdl] at hep
        | vint n => simp [isValidEndpoint, hdl] at hep
        | vlist xs => simp [isValidEndpoint, hdl] at hep
        | vdict kv => simp [isValidEndpoint, hdl] at hep
    | vnull => simp [isValidEndpoint] at hep
    | vbool b => simp [isValidEndpoint] at hep
    | vint n => simp [isValidEndpoint] at hep
    | vstr s => simp [isValidEndpoint] at hep
    | vlist xs => simp [isValidEndpoint] at hep

/-- The connection loop of `validate_topology` succeeds on § 3-valid
connections, for any starting index. -/
theorem checkConnections_ok (names : List String) (conns : List Val)
    (h : conns.all (isValidConnection names) = true) :
    ∀ i, checkConnections names i conns = .ok () := by
  induction conns with
  | nil => intro i; rfl
  | cons c rest ih =>
    intro i
    simp only [List.all_cons, Bool.and_eq_true] at h
    obtain ⟨hc, hrest⟩ := h
    cases c with
    | vdict ckvs =>
      cases hdl : dictLookup ckvs "endpoints" with
      | none => simp [isValidConnection, hdl] at hc
      | some eps =>
        cases eps with
        | vlist epList =>
          simp only [isValidConnection, hdl] at hc
          have hany : ckvs.any (fun p => p.1 == "endpoints") = true := by
            rw [← dictLookup_isSome_iff, hdl]
            rfl
          simp [checkConnections, hany, hdl, pyIter, checkEndpoints_ok i names epList hc,
            ih hrest]
        | vnull => simp [isValidConnection, hdl] at hc
        | vbool b => simp [isValidConnection, hdl] at hc
        | vint n => simp [isValidConnection, hdl] at hc
        | vstr s => simp [isValidConnection, hdl] at hc
        | vdict kv => simp [isValidConnection, hdl] at hc
    | vnull => simp [isValidConnection] at hc
    | vbool b => simp [isValidConnection] at hc
    | vint n => simp [isValidConnection] at hc
    | vstr s => simp [isValidConnection] at hc
    | vlist xs => simp [isValidConnection] at hc

end Lemmas

/-- A well-formed device configuration used by concrete instances. -/
def wDevCfg : Val := .vdict [("type", .vstr "router"), ("management", .vstr "oob")]

/-- A well-formed endpoint mapping for a device name. -/
def wEndpoint (n : String) : Val := .vdict [("device", .vstr n)]

/-- A well-formed connection between the listed device names. -/
def wConn (ns : List String) : Val := .vdict [("endpoints", .vlist (ns.map wEndpoint))]

/-- Concrete valid topology mapping used by the C2 witness. -/
def wRoot : List (String × Val) :=
  [("name", .vstr "lab"),
   ("devices", .vdict [("A", wDevCfg), ("B", wDevCfg)]),
   ("connections", .vlist [wConn ["A", "B"]])]

/-- C2: for every loaded topology satisfying the §3 structural
invariants — the three required top-level keys present, devices a
key-to-object mapping in which every device carries `type` and
`management`, connections a sequence of objects each with an `endpoints`
field, and every endpoint's `device` a key of devices —
`validate_topology` returns True and raises no error. -/
theorem validate_topology_ok_of_valid
    (root dkvs : List (String × Val)) (conns : List Val)
    (hname : root.any (fun p => p.1 == "name") = true)
    (hdev : dictLookup root "devices" = some (.vdict dkvs))
    (hprops : dkvs.all (fun p => isValidDeviceCfg p.2) = true)
    (hconn : dictLookup root "connections" = some (.vlist conns))
    (hvalid : conns.all (isValidConnection (dkvs.map Prod.fst)) = true) :
    validate_topology (some (.vdict root)) = .ok true := by
  have htruthy : pyTruthy (.vdict root) = true := by
    have hne := dictLookup_ne_nil hdev
    cases root with
    | nil => exact absurd rfl hne
    | cons p rest => simp [pyTruthy]
  have hdevany : root.any (fun p => p.1 == "devices") = true := by
    rw [← dictLookup_isSome_iff, hdev]
    rfl
  have hconnany : root.any (fun p => p.1 == "connections") = true := by
    rw [← dictLookup_isSome_iff, hconn]
    rfl
  have hfil : pyFilterNotIn (.vdict root) ["name", "devices", "connections"] = some [] := by
    apply pyFilterNotIn_all_present
    intro k hk
    simp only [List.mem_cons, List.not_mem_nil, or_false] at hk
    rcases hk with rfl | rfl | rfl
    · simp [pyContainsStr, hname]
    · simp [pyContainsStr, hdevany]
    · simp [pyContainsStr, hconnany]
  simp [validate_topology, htruthy, hfil, pySubscriptStr, hdev, hconn,
    checkDeviceProps_ok dkvs hprops,
    checkConnections_ok (dkvs.map Prod.fst) conns hvalid 0]

/-- Witness for C2: the concrete two-device, one-connection topology
`wRoot` satisfies every hypothesis and validates successfully. -/
theorem validate_topology_ok_of_valid_witness :
    (wRoot.any (fun p => p.1 == "name") = true) ∧
    dictLookup wRoot "devices" = some (.vdict [("A", wDevCfg), ("B", wDevCfg)]) ∧
    ([("A", wDevCfg), ("B", wDevCfg)].all (fun p => isValidDeviceCfg p.2) = true) ∧
    dictLookup wRoot "connections" = some (.vlist [wConn ["A", "B"]]) ∧
    ([wConn ["A", "B"]].all
      (isValidConnection ([("A", wDevCfg), ("B", wDevCfg)].map Prod.fst)) = true) ∧
    validate_topology (some (.vdict wRoot)) = .ok true :=
  ⟨by decide, by decide, by decide, by decide, by decide,
   validate_topology_ok_of_valid wRoot [("A", wDevCfg), ("B", wDevCfg)] [wConn ["A", "B"]]
     (by decide) (by decide) (by decide) (by decide) (by decide)⟩

/-- C3 counterexample: the loaded empty topology mapping (e.g. parsed
from the JSON document consisting of an empty object) is missing all
three required keys, yet `validate_topology` raises the "No topology
loaded" `ValueError` rather than a `TopologyValidationError` naming
them, because the `if not self.topology` guard conflates a loaded falsy
document with no document. -/
theorem validate_topology_empty_dict_counterexample :
    validate_topology (some (.vdict [])) = .error .noTopologyLoaded ∧
    (["name", "devices", "connections"].filter
      (fun k => !(([] : List (String × Val)).any (fun p => p.1 == k))) =
      ["name", "devices", "connections"]) ∧
    TopoError.noTopologyLoaded.isTopologyInvalid = false :=
  ⟨rfl, rfl, rfl⟩

/-- C3 (amended): for any loaded *nonempty* topology mapping missing at
least one of the keys `name`/`devices`/`connections`,
`validate_topology` fails with the `TopologyValidationError` naming
exactly the missing keys; the loaded empty mapping instead hits the
"No topology loaded" `ValueError`. -/
theorem validate_topology_missing_keys (root : List (String × Val))
    (hne : root ≠ [])
    (hmiss : ["name", "devices", "connections"].filter
      (fun k => !(root.any (fun p => p.1 == k))) ≠ []) :
    validate_topology (some (.vdict root)) =
      .error (.missingRequiredKeys (["name", "devices", "connections"].filter
        (fun k => !(root.any (fun p => p.1 == k))))) := by
  have htruthy : pyTruthy (.vdict root) = true := by
    cases root with
    | nil => exact absurd rfl hne
    | cons p rest => simp [pyTruthy]
  have hfil := pyFilterNotIn_vdict root ["name", "devices", "connections"]
  simp [validate_topology, htruthy, hfil, hmiss]

/-- Witness for C3 (amended): a topology carrying only `name` fails
naming the two missing keys. -/
theorem validate_topology_missing_keys_witness :
    (([("name", Val.vstr "x")] : List (String × Val)) ≠ []) ∧
    (["name", "devices", "connections"].filter
      (fun k => !([("name", Val.vstr "x")].any (fun p => p.1 == k))) ≠ []) ∧
    validate_topology (some (.vdict [("name", Val.vstr "x")])) =
      .error (.missingRequiredKeys ["devices", "connections"]) :=
  ⟨by decide, by decide,
   validate_topology_missing_keys [("name", Val.vstr "x")] (by decide) (by decide)⟩

/-- Concrete topology for the C4 counterexample: the connection
references the undeclared device B, and the `name` key is also
missing. -/
def c4Root : List (String × Val) :=
  [("devices", .vdict [("A", wDevCfg)]),
   ("connections", .vlist [wConn ["A", "B"]])]

/-- C4 counterexample: validation reports only the first violation
found, in checking order.  This loaded topology has a connection
endpoint whose device B is not a key of `devices`, yet
`validate_topology` fails with the missing-`name` error, which names no
device — refuting the claim for arbitrary loaded topologies. -/
theorem validate_topology_undeclared_device_masked :
    validate_topology (some (.vdict c4Root)) = .error (.missingRequiredKeys ["name"]) ∧
    (Val.vstr "B") ∈ connDeviceVals (wConn ["A", "B"]) ∧
    ("B" ∉ ([("A", wDevCfg)].map Prod.fst)) ∧
    TopoError.isNonexistentDevice (.missingRequiredKeys ["name"]) = false :=
  ⟨rfl, by decide, by decide, rfl⟩

/-- Shape decider for the amended C4: a mapping endpoint carrying some
*hashable* `device` value (declared or not; an unhashable value would
make the validator's set test raise, yielding the wrapped "Unexpected
error" instead of the nonexistent-device error). -/
def endpointHasDevice : Val → Bool
  | .vdict ekvs =>
    match dictLookup ekvs "device" with
    | some d => pyHashable d
    | none => false
  | _ => false

/-- Shape decider for the amended C4: a connection that is a mapping
whose `endpoints` is a sequence of endpoints carrying hashable
`device` values, with no constraint on whether those devices are
declared. -/
def connHasEndpointDevices : Val → Bool
  | .vdict ckvs =>
    match dictLookup ckvs "endpoints" with
    | some (.vlist eps) => eps.all endpointHasDevice
    | _ => false
  | _ => false

section Lemmas2

/-- On endpoints carrying a `device` value, the `.get('device')` access
of the queries and the `['device']` subscript of the validator extract
the same values. -/
theorem filterMap_getD_eq_subscript (eps : List Val)
    (hshape : eps.all endpointHasDevice = true) :
    eps.filterMap (fun ep => pyGetD ep "device" .vnull) =
      eps.filterMap (fun ep => pySubscriptStr ep "device") := by
  induction eps with
  | nil => rfl
  | cons ep rest ih =>
    simp only [List.all_cons, Bool.and_eq_true] at hshape
    obtain ⟨hep, hrest⟩ := hshape
    cases ep with
    | vdict ekvs =>
      cases hdev : dictLookup ekvs "device" with
      | none => simp [endpointHasDevice, hdev] at hep
      | some d =>
        have h1 : pyGetD (Val.vdict ekvs) "device" Val.vnull = some d := by
          simp [pyGetD, hdev]
        have h2 : pySubscriptStr (Val.vdict ekvs) "device" = some d := by
          simp [pySubscriptStr, hdev]
        simp only [List.filterMap_cons, h1, h2, ih hrest]
    | vnull => simp [endpointHasDevice] at hep
    | vbool b => simp [endpointHasDevice] at hep
    | vint n => simp [endpointHasDevice] at hep
    | vstr s => simp [endpointHasDevice] at hep
    | vlist xs => simp [endpointHasDevice] at hep

/-- Under the endpoint shape, the semantic `connDeviceVals` coincides
with the `device` subscripts the validator takes. -/
theorem connDeviceVals_of_shape (ckvs : List (String × Val)) (eps : List Val)
    (hdl : dictLookup ckvs "endpoints" = some (.vlist eps))
    (hshape : eps.all endpointHasDevice = true) :
    connDeviceVals (.vdict ckvs) = eps.filterMap (fun ep => pySubscriptStr ep "device") := by
  simp only [connDeviceVals, pyGetD, hdl, Option.getD_some, pyIter]
  exact filterMap_getD_eq_subscript eps hshape

/-- The endpoint loop of the validator either succeeds with every
`device` value declared, or fails with the first undeclared one. -/
theorem checkEndpoints_cases (i : Nat) (names : List String) (eps : List Val)
    (hshape : eps.all endpointHasDevice = true) :
    (checkEndpoints i names eps = .ok () ∧
      ∀ d ∈ eps.filterMap (fun ep => pySubscriptStr ep "device"),
        names.any (fun k => Val.vstr k == d) = true) ∨
    (∃ d, checkEndpoints i names eps = .error (.nonexistentDevice i d) ∧
      names.any (fun k => Val.vstr k == d) = false) := by
  induction eps with
  | nil => exact Or.inl ⟨rfl, by intro d hd; simp at hd⟩
  | cons ep rest ih =>
    simp only [List.all_cons, Bool.and_eq_true] at hshape
    obtain ⟨hep, hrest⟩ := hshape
    cases ep with
    | vdict ekvs =>
      cases hdev : dictLookup ekvs "device" with
      | none => simp [endpointHasDevice, hdev] at hep
      | some d =>
        have hh : pyHashable d = true := by
          simpa [endpointHasDevice, hdev] using hep
        have hany : ekvs.any (fun p => p.1 == "device") = true := by
          rw [← dictLookup_isSome_iff, hdev]
          rfl
        cases hdecl : names.any (fun k => Val.vstr k == d) with
        | false =>
          refine Or.inr ⟨d, ?_, hdecl⟩
          simp [checkEndpoints, pyContainsStr, hany, pySubscriptStr, hdev, hh, hdecl]
        | true =>
          rcases ih hrest with ⟨hok, hall⟩ | ⟨d', herr, hd'⟩
          · refine Or.inl ⟨?_, ?_⟩
            · simp [checkEndpoints, pyContainsStr, hany, pySubscriptStr, hdev, hh, hdecl, hok]
            · intro x hx
              simp only [List.filterMap_cons, pySubscriptStr, hdev, List.mem_cons] at hx
              rcases hx with rfl | hx
              · exact hdecl
              · exact hall x hx
          · refine Or.inr ⟨d', ?_, hd'⟩
            simp [checkEndpoints, pyContainsStr, hany, pySubscriptStr, hdev, hh, hdecl, herr]
    | vnull => simp [endpointHasDevice] at hep
    | vbool b => simp [endpointHasDevice] at hep
    | vint n => simp [endpointHasDevice] at hep
    | vstr s => simp [endpointHasDevice] at hep
    | vlist xs => simp [endpointHasDevice] at hep

/-- The connection loop of the validator either succeeds with every
endpoint device value of every connection declared, or fails with an
undeclared device of some connection. -/
theorem checkConnections_cases (names : List String) (conns : List Val)
    (hshape : conns.all connHasEndpointDevices = true) :
    ∀ i,
    (checkConnections names i conns = .ok () ∧
      ∀ c ∈ conns, ∀ d ∈ connDeviceVals c, names.any (fun k => Val.vstr k == d) = true) ∨
    (∃ j d, checkConnections names i conns = .error (.nonexistentDevice j d) ∧
      names.any (fun k => Val.vstr k == d) = false) := by
  induction conns with
  | nil =>
    intro i
    exact Or.inl ⟨rfl, by intro c hc; simp at hc⟩
  | cons c rest ih =>
    intro i
    simp only [List.all_cons, Bool.and_eq_true] at hshape
    obtain ⟨hc, hrest⟩ := hshape
    cases c with
    | vdict ckvs =>
      cases hdl : dictLookup ckvs "endpoints" with
      | none => simp [connHasEndpointDevices, hdl] at hc
      | some epsv =>
        cases epsv with
        | vlist eps =>
          simp only [connHasEndpointDevices, hdl] at hc
          have hany : ckvs.any (fun p => p.1 == "endpoints") = true := by
            rw [← dictLookup_isSome_iff, hdl]
            rfl
          have hcdv := connDeviceVals_of_shape ckvs eps hdl hc
          rcases checkEndpoints_cases i names eps hc with ⟨hok, hall⟩ | ⟨d, herr, hd⟩
          · rcases ih hrest (i + 1) with ⟨hok', hall'⟩ | ⟨j, d, herr', hd'⟩
            · refine Or.inl ⟨?_, ?_⟩
              · simp [checkConnections, hany, hdl, pyIter, hok, hok']
              · intro c' hc' d hdm
                rcases List.mem_cons.mp hc' with rfl | hc'
                · rw [hcdv] at hdm
                  exact hall d hdm
                · exact hall' c' hc' d hdm
            · refine Or.inr ⟨j, d, ?_, hd'⟩
              simp [checkConnections, hany, hdl, pyIter, hok, herr']
          · refine Or.inr ⟨i, d, ?_, hd⟩
            simp [checkConnections, hany, hdl, pyIter, herr]
        | vnull => simp [connHasEndpointDevices, hdl] at hc
        | vbool b => simp [connHasEndpointDevices, hdl] at hc
        | vint n => simp [connHasEndpointDevices, hdl] at hc
        | vstr s => simp [connHasEndpointDevices, hdl] at hc
        | vdict kv => simp [connHasEndpointDevices, hdl] at hc
    | vnull => simp [connHasEndpointDevices] at hc
    | vbool b => simp [connHasEndpointDevices] at hc
    | vint n => simp [connHasEndpointDevices] at hc
    | vstr s => simp [connHasEndpointDevices] at hc
    | vlist xs => simp [connHasEndpointDevices] at hc

end Lemmas2

/-- C4 (amended): on a loaded topology that passes every invariant
checked before the endpoint-reference check (required keys present,
devices a mapping of § 3-valid configurations, connections a list of
mappings whose endpoints carry *hashable* `device` values), if some
connection endpoint's device value is not a key of the devices mapping
then `validate_topology` fails with the "references non-existent
device" `TopologyValidationError` naming an undeclared endpoint device
(the first one encountered).  For arbitrary loaded topologies an
earlier violation is reported instead, and an unhashable device value
(a list or dict) makes the set test raise `TypeError`, reported as the
wrapped "Unexpected error" `TopologyValidationError` that names no
device. -/
theorem validate_topology_names_undeclared_device
    (root dkvs : List (String × Val)) (conns : List Val)
    (hname : root.any (fun p => p.1 == "name") = true)
    (hdev : dictLookup root "devices" = some (.vdict dkvs))
    (hprops : dkvs.all (fun p => isValidDeviceCfg p.2) = true)
    (hconn : dictLookup root "connections" = some (.vlist conns))
    (hshape : conns.all connHasEndpointDevices = true)
    (hbad : ∃ c ∈ conns, ∃ d ∈ connDeviceVals c,
      (dkvs.map Prod.fst).any (fun k => Val.vstr k == d) = false) :
    ∃ i d, validate_topology (some (.vdict root)) = .error (.nonexistentDevice i d) ∧
      (dkvs.map Prod.fst).any (fun k => Val.vstr k == d) = false := by
  have htruthy : pyTruthy (.vdict root) = true := by
    have hne := dictLookup_ne_nil hdev
    cases root with
    | nil => exact absurd rfl hne
    | cons p rest => simp [pyTruthy]
  have hdevany : root.any (fun p => p.1 == "devices") = true := by
    rw [← dictLookup_isSome_iff, hdev]
    rfl
  have hconnany : root.any (fun p => p.1 == "connections") = true := by
    rw [← dictLookup_isSome_iff, hconn]
    rfl
  have hfil : pyFilterNotIn (.vdict root) ["name", "devices", "connections"] = some [] := by
    apply pyFilterNotIn_all_present
    intro k hk
    simp only [List.mem_cons, List.not_mem_nil, or_false] at hk
    rcases hk with rfl | rfl | rfl
    · simp [pyContainsStr, hname]
    · simp [pyContainsStr, hdevany]
    · simp [pyContainsStr, hconnany]
  rcases checkConnections_cases (dkvs.map Prod.fst) conns hshape 0 with
    ⟨hok, hall⟩ | ⟨j, d, herr, hd⟩
  · obtain ⟨c, hcm, d, hdm, hdecl⟩ := hbad
    rw [hall c hcm d hdm] at hdecl
    exact absurd hdecl (by simp)
  · refine ⟨j, d, ?_, hd⟩
    simp [validate_topology, htruthy, hfil, pySubscriptStr, hdev, hconn,
      checkDeviceProps_ok dkvs hprops, herr]

/-- An unhashable endpoint device value (here the list `[1]`) makes the
validator's set-membership test raise `TypeError`, reported as the
wrapped "Unexpected error" `TopologyValidationError`, not as the
nonexistent-device error — the boundary of the amended C4. -/
theorem validate_topology_unhashable_device_unexpected :
    validate_topology (some (.vdict [("name", .vstr "t"),
      ("devices", .vdict [("A", wDevCfg)]),
      ("connections", .vlist [.vdict [("endpoints",
        .vlist [.vdict [("device", .vlist [.vint 1])]])]])])) =
      .error .unexpectedError := rfl

/-- Witness for C4 (amended): devices `{A}` with a connection `A – B`
and `name` present: validation reports non-existent device B. -/
theorem validate_topology_names_undeclared_device_witness :
    (∃ c ∈ [wConn ["A", "B"]], ∃ d ∈ connDeviceVals c,
      ([("A", wDevCfg)].map Prod.fst).any (fun k => Val.vstr k == d) = false) ∧
    (∃ i d, validate_topology (some (.vdict
        [("name", Val.vstr "lab"), ("devices", Val.vdict [("A", wDevCfg)]),
         ("connections", Val.vlist [wConn ["A", "B"]])])) =
        .error (.nonexistentDevice i d) ∧
      ([("A", wDevCfg)].map Prod.fst).any (fun k => Val.vstr k == d) = false) :=
  ⟨by decide,
   validate_topology_names_undeclared_device
     [("name", Val.vstr "lab"), ("devices", Val.vdict [("A", wDevCfg)]),
      ("connections", Val.vlist [wConn ["A", "B"]])]
     [("A", wDevCfg)] [wConn ["A", "B"]]
     (by decide) (by decide) (by decide) (by decide) (by decide) (by decide)⟩

/-- C5: for every device X declared in the loaded topology,
`verify_connectivity_path(X, X)` returns `(True, [X])` immediately,
regardless of the `connections` value, which is never consulted. -/
theorem verify_connectivity_path_self (root dkvs : List (String × Val)) (X : String)
    (hdev : dictLookup root "devices" = some (.vdict dkvs))
    (hX : (dkvs.map Prod.fst).contains X = true) :
    verify_connectivity_path (some (.vdict root)) X X = .ok (true, [.vstr X]) := by
  have htruthy : pyTruthy (.vdict root) = true := by
    have hne := dictLookup_ne_nil hdev
    cases root with
    | nil => exact absurd rfl hne
    | cons p rest => simp [pyTruthy]
  simp [verify_connectivity_path, requireLoaded, htruthy, pyGetD, hdev, dictKeys]
  rw [hX]
  rfl

/-- Witness for C5 at a concrete topology with a connection present. -/
theorem verify_connectivity_path_self_witness :
    dictLookup wRoot "devices" = some (.vdict [("A", wDevCfg), ("B", wDevCfg)]) ∧
    (([("A", wDevCfg), ("B", wDevCfg)].map Prod.fst).contains "A" = true) ∧
    verify_connectivity_path (some (.vdict wRoot)) "A" "A" = .ok (true, [.vstr "A"]) :=
  ⟨by decide, by decide,
   verify_connectivity_path_self wRoot [("A", wDevCfg), ("B", wDevCfg)] "A"
     (by decide) (by decide)⟩

/-- The three-device chain topology of C1: devices A, B, C with
connections A – B and B – C. -/
def chainRoot : List (String × Val) :=
  [("name", .vstr "chain"),
   ("devices", .vdict [("A", wDevCfg), ("B", wDevCfg), ("C", wDevCfg)]),
   ("connections", .vlist [wConn ["A", "B"], wConn ["B", "C"]])]

/-- C1: on the topology with devices `{A,B,C}` and connections A – B and
B – C, `verify_connectivity_path(A, C)` returns `(True, [A, B, C])`: the
breadth-first search over the induced adjacency graph finds the
shortest path from source to target inclusive of both ends. -/
theorem verify_connectivity_path_chain :
    verify_connectivity_path (some (.vdict chainRoot)) "A" "C" =
      .ok (true, [.vstr "A", .vstr "B", .vstr "C"]) := rfl

section ConnectedLemmas

/-- Membership in the embedded Python set after one `add`. -/
theorem setAdd_mem (acc : List Val) (d v : Val) :
    v ∈ setAdd acc d ↔ v ∈ acc ∨ v = d := by
  unfold setAdd
  by_cases h : acc.contains d = true
  · have hd : d ∈ acc := by simpa using h
    simp only [h, if_true]
    constructor
    · exact Or.inl
    · rintro (hv | rfl)
      · exact hv
      · exact hd
  · simp only [h, if_false]
    simp

/-- The embedded Python set stays duplicate-free under `add`. -/
theorem setAdd_nodup (acc : List Val) (d : Val) (h : acc.Nodup) : (setAdd acc d).Nodup := by
  unfold setAdd
  by_cases hc : acc.contains d = true
  · have hd : d ∈ acc := by simpa using hc
    simp [hd, h]
  · have hd : d ∉ acc := by simpa using hc
    simp [hd, List.nodup_append, h]

/-- The short-circuiting `any` of `get_device_connections` succeeds on
mapping endpoints and decides membership of the device among the
endpoint `device` values. -/
theorem endpointsContainDevice_ok (dn : Val) (eps : List Val)
    (h : eps.all isDictVal = true) :
    ∃ b, endpointsContainDevice dn eps = .ok b ∧
      (b = true ↔ dn ∈ eps.filterMap (fun ep => pyGetD ep "device" .vnull)) := by
  induction eps with
  | nil => exact ⟨false, rfl, by simp⟩
  | cons ep rest ih =>
    simp only [List.all_cons, Bool.and_eq_true] at h
    obtain ⟨hep, hrest⟩ := h
    cases ep with
    | vdict ekvs =>
      obtain ⟨b, hb, hiff⟩ := ih hrest
      have hget : pyGetD (Val.vdict ekvs) "device" Val.vnull =
          some ((dictLookup ekvs "device").getD Val.vnull) := rfl
      by_cases hd : (dictLookup ekvs "device").getD Val.vnull = dn
      · refine ⟨true, ?_, ?_⟩
        · simp [endpointsContainDevice, hget, hd]
        · simp [List.filterMap_cons, hget, hd]
      · refine ⟨b, ?_, ?_⟩
        · simp [endpointsContainDevice, hget, hd, hb]
        · rw [hiff]
          simp only [List.filterMap_cons, hget, List.mem_cons]
          constructor
          · exact Or.inr
          · rintro (rfl | hm)
            · exact absurd rfl hd
            · exact hm
    | vnull => simp [isDictVal] at hep
    | vbool b => simp [isDictVal] at hep
    | vint n => simp [isDictVal] at hep
    | vstr s => simp [isDictVal] at hep
    | vlist xs => simp [isDictVal] at hep

/-- Unfolding of `connDeviceVals` for a shaped connection. -/
theorem connDeviceVals_shaped (ckvs : List (String × Val)) (eps : List Val)
    (hdl : (dictLookup ckvs "endpoints").getD (.vlist []) = .vlist eps) :
    connDeviceVals (.vdict ckvs) =
      eps.filterMap (fun ep => pyGetD ep "device" .vnull) := by
  simp [connDeviceVals, pyGetD, hdl, pyIter]

/-- The connection filter of `get_device_connections` succeeds on shaped
connections and keeps exactly the connections listing the device. -/
theorem filterConnections_ok (dn : Val) (conns : List Val)
    (h : conns.all isShapedConnection = true) :
    ∃ kept, filterConnections dn conns = .ok kept ∧
      ∀ c, c ∈ kept ↔ (c ∈ conns ∧ dn ∈ connDeviceVals c) := by
  induction conns with
  | nil => exact ⟨[], rfl, by simp⟩
  | cons c rest ih =>
    simp only [List.all_cons, Bool.and_eq_true] at h
    obtain ⟨hc, hrest⟩ := h
    obtain ⟨kept, hk, hkiff⟩ := ih hrest
    cases c with
    | vdict ckvs =>
      cases hdl : (dictLookup ckvs "endpoints").getD (.vlist []) with
      | vlist eps =>
        rw [isShapedConnection, hdl] at hc
        have hget : pyGetD (Val.vdict ckvs) "endpoints" (Val.vlist []) =
            some (.vlist eps) := by
          simp only [pyGetD, hdl]
        obtain ⟨b, hb, hbiff⟩ := endpointsContainDevice_ok dn eps hc
        have hcdv := connDeviceVals_shaped ckvs eps hdl
        cases b with
        | true =>
          refine ⟨(.vdict ckvs) :: kept, ?_, ?_⟩
          · simp [filterConnections, hget, pyIter, hb, hk]
          · intro c'
            rw [List.mem_cons, hkiff c', List.mem_cons]
            constructor
            · rintro (rfl | ⟨hm, hdn⟩)
              · exact ⟨Or.inl rfl, by rw [hcdv]; exact hbiff.mp rfl⟩
              · exact ⟨Or.inr hm, hdn⟩
            · rintro ⟨rfl | hm, hdn⟩
              · exact Or.inl rfl
              · exact Or.inr ⟨hm, hdn⟩
        | false =>
          refine ⟨kept, ?_, ?_⟩
          · simp [filterConnections, hget, pyIter, hb, hk]
          · intro c'
            rw [hkiff c', List.mem_cons]
            constructor
            · rintro ⟨hm, hdn⟩
              exact ⟨Or.inr hm, hdn⟩
            · rintro ⟨rfl | hm, hdn⟩
              · exfalso
                rw [hcdv] at hdn
                exact absurd (hbiff.mpr hdn) (by simp)
              · exact ⟨hm, hdn⟩
      | vnull => rw [isShapedConnection, hdl] at hc; exact absurd hc (by simp)
      | vbool b => rw [isShapedConnection, hdl] at hc; exact absurd hc (by simp)
      | vint n => rw [isShapedConnection, hdl] at hc; exact absurd hc (by simp)
      | vstr s => rw [isShapedConnection, hdl] at hc; exact absurd hc (by simp)
      | vdict kv => rw [isShapedConnection, hdl] at hc; exact absurd hc (by simp)
    | vnull => simp [isShapedConnection] at hc
    | vbool b => simp [isShapedConnection] at hc
    | vint n => simp [isShapedConnection] at hc
    | vstr s => simp [isShapedConnection] at hc
    | vlist xs => simp [isShapedConnection] at hc

/-- The endpoint loop of `get_connected_devices` succeeds on mapping
endpoints; the set grows by exactly the truthy endpoint device values
other than the queried device, and stays duplicate-free. -/
theorem collectFromEndpoints_ok (dn : Val) (eps : List Val)
    (h : eps.all isDictVal = true)
    (hh : (eps.filterMap (fun ep => pyGetD ep "device" .vnull)).all
      (fun v => !(pyTruthy v) || pyHashable v) = true) :
    ∀ acc, ∃ out, collectFromEndpoints dn acc eps = .ok out ∧
      (∀ v, v ∈ out ↔ (v ∈ acc ∨ (pyTruthy v = true ∧ v ≠ dn ∧
        v ∈ eps.filterMap (fun ep => pyGetD ep "device" .vnull)))) ∧
      (acc.Nodup → out.Nodup) := by
  induction eps with
  | nil =>
    intro acc
    exact ⟨acc, rfl, by simp, id⟩
  | cons ep rest ih =>
    intro acc
    simp only [List.all_cons, Bool.and_eq_true] at h
    obtain ⟨hep, hrest⟩ := h
    cases ep with
    | vdict ekvs =>
      have hget : pyGetD (Val.vdict ekvs) "device" Val.vnull =
          some ((dictLookup ekvs "device").getD Val.vnull) := rfl
      simp only [List.filterMap_cons, hget, List.all_cons, Bool.and_eq_true] at hh
      obtain ⟨hd0, hhrest⟩ := hh
      by_cases hcond : (pyTruthy ((dictLookup ekvs "device").getD Val.vnull) &&
          !((dictLookup ekvs "device").getD Val.vnull == dn)) = true
      · have hhash : pyHashable ((dictLookup ekvs "device").getD Val.vnull) = true := by
          rw [Bool.or_eq_true] at hd0
          rcases hd0 with hf | hx
          · have htr : pyTruthy ((dictLookup ekvs "device").getD Val.vnull) = true := by
              rw [Bool.and_eq_true] at hcond
              exact hcond.1
            rw [htr] at hf
            simp at hf
          · exact hx
        obtain ⟨out, hout, hmem, hnd⟩ :=
          ih hrest hhrest (setAdd acc ((dictLookup ekvs "device").getD Val.vnull))
        refine ⟨out, ?_, ?_, ?_⟩
        · simp only [collectFromEndpoints, hget, hcond, if_true, hhash]
          exact hout
        · intro v
          rw [hmem v, setAdd_mem]
          simp only [Bool.and_eq_true, Bool.not_eq_eq_eq_not, Bool.not_true, beq_eq_false_iff_ne,
            ne_eq] at hcond
          simp only [List.filterMap_cons, hget, List.mem_cons]
          constructor
          · rintro ((hv | rfl) | ⟨ht, hne, hm⟩)
            · exact Or.inl hv
            · exact Or.inr ⟨hcond.1, hcond.2, Or.inl rfl⟩
            · exact Or.inr ⟨ht, hne, Or.inr hm⟩
          · rintro (hv | ⟨ht, hne, rfl | hm⟩)
            · exact Or.inl (Or.inl hv)
            · exact Or.inl (Or.inr rfl)
            · exact Or.inr ⟨ht, hne, hm⟩
        · intro hn
          exact hnd (setAdd_nodup acc _ hn)
      · obtain ⟨out, hout, hmem, hnd⟩ := ih hrest hhrest acc
        refine ⟨out, ?_, ?_, hnd⟩
        · simp only [collectFromEndpoints, hget, hcond, if_false]
          exact hout
        · intro v
          rw [hmem v]
          simp only [Bool.and_eq_true, Bool.not_eq_eq_eq_not, Bool.not_true, beq_eq_false_iff_ne,
            ne_eq, not_and] at hcond
          simp only [List.filterMap_cons, hget, List.mem_cons]
          constructor
          · rintro (hv | ⟨ht, hne, hm⟩)
            · exact Or.inl hv
            · exact Or.inr ⟨ht, hne, Or.inr hm⟩
          · rintro (hv | ⟨ht, hne, rfl | hm⟩)
            · exact Or.inl hv
            · exact absurd (hcond ht) (by simpa using hne)
            · exact Or.inr ⟨ht, hne, hm⟩
    | vnull => simp [isDictVal] at hep
    | vbool b => simp [isDictVal] at hep
    | vint n => simp [isDictVal] at hep
    | vstr s => simp [isDictVal] at hep
    | vlist xs => simp [isDictVal] at hep

/-- The connection loop of `get_connected_devices` succeeds on shaped
connections; the resulting set holds exactly the truthy endpoint device
values, other than the queried device, of the listed connections. -/
theorem collectConnected_ok (dn : Val) (conns : List Val)
    (h : conns.all isShapedConnection = true)
    (hh : conns.all connDevicesHashable = true) :
    ∀ acc, ∃ out, collectConnected dn acc conns = .ok out ∧
      (∀ v, v ∈ out ↔ (v ∈ acc ∨ (pyTruthy v = true ∧ v ≠ dn ∧
        ∃ c ∈ conns, v ∈ connDeviceVals c))) ∧
      (acc.Nodup → out.Nodup) := by
  induction conns with
  | nil =>
    intro acc
    exact ⟨acc, rfl, by simp, id⟩
  | cons c rest ih =>
    intro acc
    simp only [List.all_cons, Bool.and_eq_true] at h hh
    obtain ⟨hc, hrest⟩ := h
    obtain ⟨hch, hhrest⟩ := hh
    cases c with
    | vdict ckvs =>
      cases hdl : (dictLookup ckvs "endpoints").getD (.vlist []) with
      | vlist eps =>
        rw [isShapedConnection, hdl] at hc
        have hget : pyGetD (Val.vdict ckvs) "endpoints" (Val.vlist []) =
            some (.vlist eps) := by
          simp only [pyGetD, hdl]
        have hcdv := connDeviceVals_shaped ckvs eps hdl
        have hch' : (eps.filterMap (fun ep => pyGetD ep "device" .vnull)).all
            (fun v => !(pyTruthy v) || pyHashable v) = true := by
          rw [connDevicesHashable, hcdv] at hch
          exact hch
        obtain ⟨acc', hacc', hmem', hnd'⟩ := collectFromEndpoints_ok dn eps hc hch' acc
        obtain ⟨out, hout, hmem, hnd⟩ := ih hrest hhrest acc'
        refine ⟨out, ?_, ?_, fun hn => hnd (hnd' hn)⟩
        · simp only [collectConnected, hget, pyIter, hacc']
          exact hout
        · intro v
          rw [hmem v, hmem' v]
          constructor
          · rintro ((hv | ⟨ht, hne, hm⟩) | ⟨ht, hne, c', hc', hm⟩)
            · exact Or.inl hv
            · exact Or.inr ⟨ht, hne, .vdict ckvs, List.mem_cons_self _ _,
                by rw [hcdv]; exact hm⟩
            · exact Or.inr ⟨ht, hne, c', List.mem_cons_of_mem _ hc', hm⟩
          · rintro (hv | ⟨ht, hne, c', hc', hm⟩)
            · exact Or.inl (Or.inl hv)
            · rcases List.mem_cons.mp hc' with rfl | hc'
              · exact Or.inl (Or.inr ⟨ht, hne, by rw [hcdv] at hm; exact hm⟩)
              · exact Or.inr ⟨ht, hne, c', hc', hm⟩
      | vnull => rw [isShapedConnection, hdl] at hc; exact absurd hc (by simp)
      | vbool b => rw [isShapedConnection, hdl] at hc; exact absurd hc (by simp)
      | vint n => rw [isShapedConnection, hdl] at hc; exact absurd hc (by simp)
      | vstr s => rw [isShapedConnection, hdl] at hc; exact absurd hc (by simp)
      | vdict kv => rw [isShapedConnection, hdl] at hc; exact absurd hc (by simp)
    | vnull => simp [isShapedConnection] at hc
    | vbool b => simp [isShapedConnection] at hc
    | vint n => simp [isShapedConnection] at hc
    | vstr s => simp [isShapedConnection] at hc
    | vlist xs => simp [isShapedConnection] at hc

/-- String-valued truthy endpoint devices are in particular hashable. -/
theorem connDevicesStrings_hashable {conns : List Val}
    (h : conns.all connDevicesStrings = true) : conns.all connDevicesHashable = true := by
  rw [List.all_eq_true] at h ⊢
  intro c hc
  have h1 := h c hc
  rw [connDevicesStrings, List.all_eq_true] at h1
  rw [connDevicesHashable, List.all_eq_true]
  intro v hv
  have h2 := h1 v hv
  rw [Bool.or_eq_true] at h2 ⊢
  rcases h2 with hf | hm
  · exact Or.inl hf
  · refine Or.inr ?_
    cases v with
    | vstr s => rfl
    | vnull => simp at hm
    | vbool b => simp at hm
    | vint i => simp at hm
    | vlist xs => simp at hm
    | vdict kv => simp at hm

/-- Truthy endpoint devices that name declared devices are in
particular strings. -/
theorem connDevicesDeclared_strings {names : List String} {conns : List Val}
    (h : conns.all (connDevicesDeclared names) = true) :
    conns.all connDevicesStrings = true := by
  rw [List.all_eq_true] at h ⊢
  intro c hc
  have h1 := h c hc
  rw [connDevicesDeclared, List.all_eq_true] at h1
  rw [connDevicesStrings, List.all_eq_true]
  intro v hv
  have h2 := h1 v hv
  rw [Bool.or_eq_true] at h2 ⊢
  rcases h2 with hf | hm
  · exact Or.inl hf
  · refine Or.inr ?_
    cases v with
    | vstr s => rfl
    | vnull => simp at hm
    | vbool b => simp at hm
    | vint i => simp at hm
    | vlist xs => simp at hm
    | vdict kv => simp at hm

/-- Bridging: the dict-membership test the source performs for a string
device name agrees with key membership. -/
theorem any_fst_vstr (dkvs : List (String × Val)) (s : String) :
    dkvs.any (fun p => Val.vstr p.1 == Val.vstr s) = (dkvs.map Prod.fst).contains s := by
  induction dkvs with
  | nil => rfl
  | cons p rest ih =>
    simp only [List.any_cons, List.map_cons, List.contains_cons, ih]
    congr 1
    simp [beq_iff_eq, Val.vstr.injEq, eq_comm]

/-- Characterization of `get_connected_devices` on a declared device of
a topology with shaped connections: it succeeds, and returns — without
duplicates — exactly the truthy endpoint device values other than the
queried device that occur in a connection also listing it. -/
theorem get_connected_devices_spec (root dkvs : List (String × Val)) (conns : List Val)
    (dn : String)
    (hdev : dictLookup root "devices" = some (.vdict dkvs))
    (hdn : (dkvs.map Prod.fst).contains dn = true)
    (hconn : dictLookup root "connections" = some (.vlist conns))
    (hshape : conns.all isShapedConnection = true)
    (hstr : conns.all connDevicesStrings = true) :
    ∃ out, get_connected_devices (some (.vdict root)) (.vstr dn) = .ok out ∧
      out.Nodup ∧
      ∀ v, v ∈ out ↔ (pyTruthy v = true ∧ v ≠ .vstr dn ∧
        ∃ c ∈ conns, Val.vstr dn ∈ connDeviceVals c ∧ v ∈ connDeviceVals c) := by
  have hhash : conns.all connDevicesHashable = true := connDevicesStrings_hashable hstr
  have htruthy : pyTruthy (.vdict root) = true := by
    have hne := dictLookup_ne_nil hdev
    cases root with
    | nil => exact absurd rfl hne
    | cons p rest => simp [pyTruthy]
  have hmem : dkvs.any (fun p => Val.vstr p.1 == Val.vstr dn) = true := by
    rw [any_fst_vstr, hdn]
  obtain ⟨kept, hkept, hkiff⟩ := filterConnections_ok (.vstr dn) conns hshape
  have hkshape : kept.all isShapedConnection = true := by
    rw [List.all_eq_true] at hshape ⊢
    intro c hc
    exact hshape c ((hkiff c).mp hc).1
  have hkhash : kept.all connDevicesHashable = true := by
    rw [List.all_eq_true] at hhash ⊢
    intro c hc
    exact hhash c ((hkiff c).mp hc).1
  obtain ⟨out, hout, hmem2, hnd⟩ := collectConnected_ok (.vstr dn) kept hkshape hkhash []
  have hgdc : get_device_connections (some (.vdict root)) (.vstr dn) = .ok kept := by
    simp only [get_device_connections, requireLoaded, htruthy, if_true, pyGetD, hdev,
      Option.getD_some, pyContainsVal, pyHashable, hconn, pyIter]
    rw [hmem]
    simpa using hkept
  refine ⟨out, ?_, hnd List.nodup_nil, ?_⟩
  · simp only [get_connected_devices, hgdc]
    exact hout
  · intro v
    rw [hmem2 v]
    simp only [List.not_mem_nil, false_or]
    constructor
    · rintro ⟨ht, hne, c, hc, hm⟩
      obtain ⟨hcm, hdnm⟩ := (hkiff c).mp hc
      exact ⟨ht, hne, c, hcm, hdnm, hm⟩
    · rintro ⟨ht, hne, c, hcm, hdnm, hm⟩
      exact ⟨ht, hne, c, (hkiff c).mpr ⟨hcm, hdnm⟩, hm⟩

end ConnectedLemmas

/-- Concrete topology for the C7 counterexample: a declared device named
by the empty string, connected to D2. -/
def c7Root : List (String × Val) :=
  [("name", .vstr "t"),
   ("devices", .vdict [("D2", wDevCfg), ("", wDevCfg)]),
   ("connections", .vlist [wConn ["D2", ""]])]

/-- C7 counterexample: the device named by the empty string is declared,
appears as the other endpoint of a connection listing D2, and differs
from D2, yet `get_connected_devices(D2)` omits it: the
`if endpoint_device` truthiness guard drops falsy device names.  The
topology passes validation, so the claim fails even on valid
topologies. -/
theorem get_connected_devices_empty_name_counterexample :
    validate_topology (some (.vdict c7Root)) = .ok true ∧
    get_connected_devices (some (.vdict c7Root)) (.vstr "D2") = .ok [] ∧
    ("" ∈ [("D2", wDevCfg), ("", wDevCfg)].map Prod.fst) ∧
    (Val.vstr "" ∈ connDeviceVals (wConn ["D2", ""])) ∧
    (Val.vstr "D2" ∈ connDeviceVals (wConn ["D2", ""])) ∧
    ("" ≠ "D2") :=
  ⟨rfl, rfl, by decide, by decide, by decide, by decide⟩

/-- C7 (amended): for every declared device D of a topology whose
connections are mappings with sequences of mapping endpoints and whose
truthy endpoint `device` values are strings,
`get_connected_devices(D)` returns, with no duplicates, exactly the set
of truthy endpoint `device` values other than D itself that appear in
some connection that also lists D — that is, the set of other device
names, except that a device named by the empty string (falsy in
Python) is never reported; D is excluded even when a connection lists
D twice.  Outside that scope the claim fails: a truthy unhashable
device value (a list or dict) makes the method raise `TypeError` from
`set.add`, and Python's numeric equality would conflate `1` with
`True` in the set. -/
theorem get_connected_devices_characterization (root dkvs : List (String × Val))
    (conns : List Val) (D : String)
    (hdev : dictLookup root "devices" = some (.vdict dkvs))
    (hD : (dkvs.map Prod.fst).contains D = true)
    (hconn : dictLookup root "connections" = some (.vlist conns))
    (hshape : conns.all isShapedConnection = true)
    (hstr : conns.all connDevicesStrings = true) :
    ∃ out, get_connected_devices (some (.vdict root)) (.vstr D) = .ok out ∧
      out.Nodup ∧
      ∀ v, v ∈ out ↔ (pyTruthy v = true ∧ v ≠ .vstr D ∧
        ∃ c ∈ conns, Val.vstr D ∈ connDeviceVals c ∧ v ∈ connDeviceVals c) :=
  get_connected_devices_spec root dkvs conns D hdev hD hconn hshape hstr

/-- A truthy unhashable endpoint device value (here the list `[1]`)
makes `set.add` raise an uncaught `TypeError` inside
`get_connected_devices` — the boundary of the amended C7. -/
theorem get_connected_devices_unhashable_raises :
    get_connected_devices (some (.vdict [("name", .vstr "t"),
      ("devices", .vdict [("D", wDevCfg)]),
      ("connections", .vlist [.vdict [("endpoints",
        .vlist [.vdict [("device", .vstr "D")],
          .vdict [("device", .vlist [.vint 1])]])]])]))
      (.vstr "D") = .error .pyError := rfl

/-- Witness for C7 (amended) on the chain topology at device B. -/
theorem get_connected_devices_characterization_witness :
    dictLookup chainRoot "devices" =
      some (.vdict [("A", wDevCfg), ("B", wDevCfg), ("C", wDevCfg)]) ∧
    (([("A", wDevCfg), ("B", wDevCfg), ("C", wDevCfg)].map Prod.fst).contains "B" = true) ∧
    dictLookup chainRoot "connections" =
      some (.vlist [wConn ["A", "B"], wConn ["B", "C"]]) ∧
    ([wConn ["A", "B"], wConn ["B", "C"]].all isShapedConnection = true) ∧
    ([wConn ["A", "B"], wConn ["B", "C"]].all connDevicesStrings = true) ∧
    (∃ out, get_connected_devices (some (.vdict chainRoot)) (.vstr "B") = .ok out ∧
      out.Nodup ∧
      ∀ v, v ∈ out ↔ (pyTruthy v = true ∧ v ≠ .vstr "B" ∧
        ∃ c ∈ [wConn ["A", "B"], wConn ["B", "C"]],
          Val.vstr "B" ∈ connDeviceVals c ∧ v ∈ connDeviceVals c)) :=
  ⟨by decide, by decide, by decide, by decide, by decide,
   get_connected_devices_characterization chainRoot
     [("A", wDevCfg), ("B", wDevCfg), ("C", wDevCfg)]
     [wConn ["A", "B"], wConn ["B", "C"]] "B"
     (by decide) (by decide) (by decide) (by decide) (by decide)⟩

section BfsTermination

/-- The `any` generator of the connection filter never raises the
artificial fuel error. -/
theorem endpointsContainDevice_no_fuel {dn : Val} {eps : List Val} {e : TopoError}
    (h : endpointsContainDevice dn eps = .error e) : e ≠ .fuelExhausted := by
  induction eps with
  | nil => simp [endpointsContainDevice] at h
  | cons ep rest ih =>
    simp only [endpointsContainDevice] at h
    cases hg : pyGetD ep "device" Val.vnull with
    | none =>
      simp only [hg] at h
      cases h
      simp
    | some d =>
      simp only [hg] at h
      by_cases hd : (d == dn) = true
      · rw [if_pos hd] at h
        cases h
      · rw [if_neg hd] at h
        exact ih h

/-- The connection filter never raises the artificial fuel error. -/
theorem filterConnections_no_fuel {dn : Val} {conns : List Val} {e : TopoError}
    (h : filterConnections dn conns = .error e) : e ≠ .fuelExhausted := by
  induction conns with
  | nil => simp [filterConnections] at h
  | cons c rest ih =>
    simp only [filterConnections] at h
    cases hg : pyGetD c "endpoints" (Val.vlist []) with
    | none =>
      simp only [hg] at h
      cases h
      simp
    | some eps =>
      simp only [hg] at h
      cases hi : pyIter eps with
      | none =>
        simp only [hi] at h
        cases h
        simp
      | some epList =>
        simp only [hi] at h
        cases he : endpointsContainDevice dn epList with
        | error e' =>
          simp only [he] at h
          cases h
          exact endpointsContainDevice_no_fuel he
        | ok found =>
          simp only [he] at h
          cases hf : filterConnections dn rest with
          | error e' =>
            simp only [hf] at h
            cases h
            exact ih hf
          | ok others =>
            simp only [hf] at h
            cases h

/-- The endpoint collection loop never raises the artificial fuel
error. -/
theorem collectFromEndpoints_no_fuel {dn : Val} {eps : List Val} {e : TopoError} :
    ∀ {acc : List Val}, collectFromEndpoints dn acc eps = .error e → e ≠ .fuelExhausted := by
  induction eps with
  | nil =>
    intro acc h
    simp [collectFromEndpoints] at h
  | cons ep rest ih =>
    intro acc h
    simp only [collectFromEndpoints] at h
    cases hg : pyGetD ep "device" Val.vnull with
    | none =>
      simp only [hg] at h
      cases h
      simp
    | some d =>
      simp only [hg] at h
      by_cases hcond : (pyTruthy d && !(d == dn)) = true
      · rw [if_pos hcond] at h
        by_cases hhash : pyHashable d = true
        · rw [if_pos hhash] at h
          exact ih h
        · rw [if_neg hhash] at h
          cases h
          simp
      · rw [if_neg hcond] at h
        exact ih h

/-- The connection collection loop never raises the artificial fuel
error. -/
theorem collectConnected_no_fuel {dn : Val} {conns : List Val} {e : TopoError} :
    ∀ {acc : List Val}, collectConnected dn acc conns = .error e → e ≠ .fuelExhausted := by
  induction conns with
  | nil =>
    intro acc h
    simp [collectConnected] at h
  | cons c rest ih =>
    intro acc h
    simp only [collectConnected] at h
    cases hg : pyGetD c "endpoints" (Val.vlist []) with
    | none =>
      simp only [hg] at h
      cases h
      simp
    | some eps =>
      simp only [hg] at h
      cases hi : pyIter eps with
      | none =>
        simp only [hi] at h
        cases h
        simp
      | some epList =>
        simp only [hi] at h
        cases hc : collectFromEndpoints dn acc epList with
        | error e' =>
          simp only [hc] at h
          cases h
          exact collectFromEndpoints_no_fuel hc
        | ok acc' =>
          simp only [hc] at h
          exact ih h

/-- `get_connected_devices` never raises the artificial fuel error. -/
theorem get_connected_devices_no_fuel {topology : Option Val} {dn : Val} {e : TopoError}
    (h : get_connected_devices topology dn = .error e) : e ≠ .fuelExhausted := by
  simp only [get_connected_devices] at h
  cases hg : get_device_connections topology dn with
  | error e' =>
    simp only [hg] at h
    cases h
    simp only [get_device_connections] at hg
    cases hr : requireLoaded topology with
    | error e'' =>
      simp only [hr] at hg
      cases hg
      cases topology with
      | none =>
        simp only [requireLoaded] at hr
        cases hr
        simp
      | some t =>
        simp only [requireLoaded] at hr
        by_cases ht : pyTruthy t = true
        · rw [if_pos ht] at hr
          cases hr
        · rw [if_neg ht] at hr
          cases hr
          simp
    | ok t =>
      simp only [hr] at hg
      cases hd : pyGetD t "devices" (.vdict []) with
      | none =>
        simp only [hd] at hg
        cases hg
        simp
      | some devices =>
        simp only [hd] at hg
        cases hm : pyContainsVal devices dn with
        | none =>
          simp only [hm] at hg
          cases hg
          simp
        | some mem =>
          simp only [hm] at hg
          cases mem with
          | false =>
            simp at hg
            simp [← hg]
          | true =>
            simp only [Bool.not_true, if_false] at hg
            cases hc : pyGetD t "connections" (.vlist []) with
            | none =>
              simp only [hc] at hg
              cases hg
              simp
            | some conns =>
              simp only [hc] at hg
              cases hi : pyIter conns with
              | none =>
                simp only [hi] at hg
                cases hg
                simp
              | some connList =>
                simp only [hi] at hg
                exact filterConnections_no_fuel hg
  | ok conns =>
    simp only [hg] at h
    exact collectConnected_no_fuel h

/-- The BFS loop never produces the artificial fuel error as a
result. -/
theorem bfsLoop_no_fuel {topology : Option Val} {tgt : Val} :
    ∀ {fuel : Nat} {queue : List (Val × List Val)} {visited : List Val}
      {r : Except TopoError (Bool × List Val)},
    bfsLoop topology tgt fuel queue visited = some r → r ≠ .error .fuelExhausted := by
  intro fuel
  induction fuel with
  | zero =>
    intro queue visited r h
    simp [bfsLoop] at h
  | succ f ih =>
    intro queue visited r h
    cases queue with
    | nil =>
      simp only [bfsLoop] at h
      cases h
      simp
    | cons qe rest =>
      obtain ⟨cur, path⟩ := qe
      simp only [bfsLoop] at h
      cases hg : get_connected_devices topology cur with
      | error e =>
        simp only [hg] at h
        cases h
        simpa using get_connected_devices_no_fuel hg
      | ok ns =>
        simp only [hg] at h
        cases hs : bfsScan tgt path ns visited rest with
        | inl p =>
          simp only [hs] at h
          cases h
          simp
        | inr vq =>
          obtain ⟨v', q'⟩ := vq
          simp only [hs] at h
          exact ih h

/-- Elements added by the endpoint collection loop come from the
endpoint `device` values. -/
theorem collectFromEndpoints_subset {dn : Val} {eps : List Val} :
    ∀ {acc out : List Val}, collectFromEndpoints dn acc eps = .ok out →
    ∀ v ∈ out, v ∈ acc ∨ v ∈ eps.filterMap (fun ep => pyGetD ep "device" .vnull) := by
  induction eps with
  | nil =>
    intro acc out h v hv
    cases h
    exact Or.inl hv
  | cons ep rest ih =>
    intro acc out h v hv
    rw [collectFromEndpoints] at h
    cases hg : pyGetD ep "device" Val.vnull with
    | none =>
      simp [hg] at h
    | some d =>
      simp only [hg] at h
      by_cases hcond : (pyTruthy d && !(d == dn)) = true
      · rw [if_pos hcond] at h
        by_cases hhash : pyHashable d = true
        · rw [if_pos hhash] at h
          rcases ih h v hv with hacc | hm
          · rcases (setAdd_mem acc d v).mp hacc with hv' | rfl
            · exact Or.inl hv'
            · exact Or.inr (by simp [List.filterMap_cons, hg])
          · exact Or.inr (by simp [List.filterMap_cons, hg, hm])
        · rw [if_neg hhash] at h
          cases h
      · rw [if_neg hcond] at h
        rcases ih h v hv with hacc | hm
        · exact Or.inl hacc
        · exact Or.inr (by simp [List.filterMap_cons, hg, hm])

/-- Elements collected over a list of connections come from the
connections' endpoint device values. -/
theorem collectConnected_subset {dn : Val} {conns : List Val} :
    ∀ {acc out : List Val}, collectConnected dn acc conns = .ok out →
    ∀ v ∈ out, v ∈ acc ∨ ∃ c ∈ conns, v ∈ connDeviceVals c := by
  induction conns with
  | nil =>
    intro acc out h v hv
    cases h
    exact Or.inl hv
  | cons c rest ih =>
    intro acc out h v hv
    rw [collectConnected] at h
    cases hg : pyGetD c "endpoints" (Val.vlist []) with
    | none => simp [hg] at h
    | some eps =>
      simp only [hg] at h
      cases hi : pyIter eps with
      | none => simp [hi] at h
      | some epList =>
        simp only [hi] at h
        cases hc : collectFromEndpoints dn acc epList with
        | error e => simp [hc] at h
        | ok acc' =>
          simp only [hc] at h
          have hcdv : connDeviceVals c =
              epList.filterMap (fun ep => pyGetD ep "device" .vnull) := by
            simp only [connDeviceVals, hg, hi]
          rcases ih h v hv with hacc' | ⟨c', hc', hm⟩
          · rcases collectFromEndpoints_subset hc v hacc' with hacc | hm
            · exact Or.inl hacc
            · exact Or.inr ⟨c, List.mem_cons_self _ _, by rw [hcdv]; exact hm⟩
          · exact Or.inr ⟨c', List.mem_cons_of_mem _ hc', hm⟩

/-- The connection filter returns a sublist of its input. -/
theorem filterConnections_subset {dn : Val} {conns : List Val} :
    ∀ {kept : List Val}, filterConnections dn conns = .ok kept → ∀ c ∈ kept, c ∈ conns := by
  induction conns with
  | nil =>
    intro kept h c hc
    cases h
    simp at hc
  | cons c0 rest ih =>
    intro kept h c hc
    rw [filterConnections] at h
    cases hg : pyGetD c0 "endpoints" (Val.vlist []) with
    | none => simp [hg] at h
    | some eps =>
      simp only [hg] at h
      cases hi : pyIter eps with
      | none => simp [hi] at h
      | some epList =>
        simp only [hi] at h
        cases he : endpointsContainDevice dn epList with
        | error e => simp [he] at h
        | ok found =>
          simp only [he] at h
          cases hf : filterConnections dn rest with
          | error e => simp [hf] at h
          | ok others =>
            simp only [hf] at h
            cases found with
            | true =>
              simp only [if_true] at h
              cases h
              rcases List.mem_cons.mp hc with rfl | hc'
              · exact List.mem_cons_self _ _
              · exact List.mem_cons_of_mem _ (ih hf c hc')
            | false =>
              simp only [Bool.false_eq_true, if_false] at h
              cases h
              exact List.mem_cons_of_mem _ (ih hf c hc)

/-- Every device `get_connected_devices` can return is one of the
topology's endpoint device values. -/
theorem get_connected_devices_subset {t : Val} {dn : Val} {out : List Val}
    (h : get_connected_devices (some t) dn = .ok out) :
    ∀ v ∈ out, v ∈ allEndpointVals t := by
  intro v hv
  rw [get_connected_devices] at h
  cases hg : get_device_connections (some t) dn with
  | error e => simp [hg] at h
  | ok kept =>
    simp only [hg] at h
    rw [get_device_connections] at hg
    cases hr : requireLoaded (some t) with
    | error e => simp [hr] at hg
    | ok t2 =>
      have ht2 : t2 = t := by
        simp only [requireLoaded] at hr
        by_cases ht : pyTruthy t = true
        · rw [if_pos ht] at hr
          exact (Except.ok.inj hr).symm
        · rw [if_neg ht] at hr
          cases hr
      simp only [hr, ht2] at hg
      cases hd : pyGetD t "devices" (.vdict []) with
      | none => simp [hd] at hg
      | some devices =>
        simp only [hd] at hg
        cases hm : pyContainsVal devices dn with
        | none => simp [hm] at hg
        | some mem =>
          simp only [hm] at hg
          cases mem with
          | false => simp at hg
          | true =>
            simp only [Bool.not_true, if_false] at hg
            cases hc : pyGetD t "connections" (.vlist []) with
            | none => simp [hc] at hg
            | some conns =>
              simp only [hc] at hg
              cases hi : pyIter conns with
              | none => simp [hi] at hg
              | some connList =>
                simp only [hi] at hg
                rcases collectConnected_subset h v hv with hacc | ⟨c, hcm, hcd⟩
                · simp at hacc
                · have hcl : c ∈ connList := filterConnections_subset hg c hcm
                  simp only [allEndpointVals, hc, hi]
                  rw [List.mem_flatten]
                  exact ⟨connDeviceVals c, List.mem_map_of_mem connDeviceVals hcl, hcd⟩

/-- Fuel measure for the BFS loop: queue length plus the number of
universe devices not yet visited. -/
def bfsMeasure (U : Finset Val) (queue : List (Val × List Val)) (visited : List Val) : Nat :=
  queue.length + (U \ visited.toFinset).card

/-- The inner neighbour scan preserves the fuel measure: each enqueue is
matched by a newly visited universe device. -/
theorem bfsScan_measure (tgt : Val) (path : List Val) (U : Finset Val) :
    ∀ (ns visited : List Val) (queue : List (Val × List Val)),
    (∀ n ∈ ns, n ∈ U) →
    ∀ {v' : List Val} {q' : List (Val × List Val)},
    bfsScan tgt path ns visited queue = .inr (v', q') →
    q'.length + (U \ v'.toFinset).card = queue.length + (U \ visited.toFinset).card := by
  intro ns
  induction ns with
  | nil =>
    intro visited queue hU v' q' hs
    cases hs
    rfl
  | cons n ns ih =>
    intro visited queue hU v' q' hs
    rw [bfsScan] at hs
    by_cases hn : (n == tgt) = true
    · rw [if_pos hn] at hs
      cases hs
    · rw [if_neg hn] at hs
      by_cases hv : visited.contains n = true
      · rw [if_pos hv] at hs
        exact ih _ _ (fun m hm => hU m (List.mem_cons_of_mem _ hm)) hs
      · rw [if_neg hv] at hs
        have hrec := ih _ _ (fun m hm => hU m (List.mem_cons_of_mem _ hm)) hs
        rw [hrec]
        have hnU : n ∈ U := hU n (List.mem_cons_self _ _)
        have hnv : n ∉ visited.toFinset := by
          rw [List.mem_toFinset]
          simpa using hv
        have hins : (visited ++ [n]).toFinset = insert n visited.toFinset := by
          ext x
          simp [or_comm]
        have hsd : U \ insert n visited.toFinset = (U \ visited.toFinset).erase n := by
          ext x
          simp only [Finset.mem_sdiff, Finset.mem_erase, Finset.mem_insert]
          tauto
        have hmem : n ∈ U \ visited.toFinset := Finset.mem_sdiff.mpr ⟨hnU, hnv⟩
        have hpos : 0 < (U \ visited.toFinset).card := Finset.card_pos.mpr ⟨n, hmem⟩
        rw [List.length_append, hins, hsd, Finset.card_erase_of_mem hmem]
        simp only [List.length_singleton]
        omega

/-- With fuel exceeding the measure, the BFS loop reaches a result. -/
theorem bfsLoop_terminates (t : Val) (tgt : Val) :
    ∀ (fuel : Nat) (queue : List (Val × List Val)) (visited : List Val),
    bfsMeasure ((allEndpointVals t).toFinset) queue visited < fuel →
    bfsLoop (some t) tgt fuel queue visited ≠ none := by
  intro fuel
  induction fuel with
  | zero =>
    intro queue visited h
    exact absurd h (by omega)
  | succ f ih =>
    intro queue visited hμ
    cases queue with
    | nil => simp [bfsLoop]
    | cons qe rest =>
      obtain ⟨cur, path⟩ := qe
      intro hnone
      rw [bfsLoop] at hnone
      cases hg : get_connected_devices (some t) cur with
      | error e => simp [hg] at hnone
      | ok ns =>
        simp only [hg] at hnone
        cases hs : bfsScan tgt path ns visited rest with
        | inl p => simp [hs] at hnone
        | inr vq =>
          obtain ⟨v', q'⟩ := vq
          simp only [hs] at hnone
          refine ih q' v' ?_ hnone
          have hsub : ∀ n ∈ ns, n ∈ (allEndpointVals t).toFinset := by
            intro n hn
            rw [List.mem_toFinset]
            exact get_connected_devices_subset hg n hn
          have hpres := bfsScan_measure tgt path _ ns visited rest hsub hs
          unfold bfsMeasure at hμ ⊢
          simp only [List.length_cons] at hμ
          omega

end BfsTermination

/-- C10: `verify_connectivity_path` terminates on every finite loaded
topology, cyclic or not: the embedded BFS loop, run with fuel exceeding
the number of endpoint device values plus one, always reaches a result,
so the fuel-exhaustion marker is unreachable (each enqueue visits a new
device, so the queue is exhausted after at most one dequeue per
universe device). -/
theorem verify_connectivity_path_terminates (topology : Option Val) (s tg : String) :
    verify_connectivity_path topology s tg ≠ .error .fuelExhausted := by
  intro hEq
  rw [verify_connectivity_path] at hEq
  cases hr : requireLoaded topology with
  | error e =>
    simp only [hr] at hEq
    cases hEq
    cases topology with
    | none => simp [requireLoaded] at hr
    | some t =>
      simp only [requireLoaded] at hr
      by_cases ht : pyTruthy t = true
      · rw [if_pos ht] at hr
        cases hr
      · rw [if_neg ht] at hr
        simp at hr
  | ok t =>
    simp only [hr] at hEq
    have htop : topology = some t := by
      cases topology with
      | none => simp [requireLoaded] at hr
      | some t0 =>
        simp only [requireLoaded] at hr
        by_cases ht : pyTruthy t0 = true
        · rw [if_pos ht] at hr
          rw [Except.ok.inj hr]
        · rw [if_neg ht] at hr
          cases hr
    subst htop
    cases hd : pyGetD t "devices" (.vdict []) with
    | none =>
      simp only [hd] at hEq
      simp at hEq
    | some devicesV =>
      simp only [hd] at hEq
      cases hk : dictKeys devicesV with
      | none =>
        simp only [hk] at hEq
        simp at hEq
      | some device_names =>
        simp only [hk] at hEq
        by_cases hsc : device_names.contains s = true
        · have h1 : (!device_names.contains s) = false := by
            rw [hsc]
            rfl
          rw [h1] at hEq
          simp only [Bool.false_eq_true, if_false] at hEq
          by_cases htc : device_names.contains tg = true
          · have h2 : (!device_names.contains tg) = false := by
              rw [htc]
              rfl
            rw [h2] at hEq
            simp only [Bool.false_eq_true, if_false] at hEq
            by_cases hst : (s == tg) = true
            · rw [if_pos hst] at hEq
              simp at hEq
            · rw [if_neg hst] at hEq
              cases hb : bfsLoop (some t) (.vstr tg) ((allEndpointVals t).length + 2)
                  [(Val.vstr s, [Val.vstr s])] [Val.vstr s] with
              | some r =>
                simp only [hb] at hEq
                exact (bfsLoop_no_fuel hb) hEq
              | none =>
                refine absurd hb (bfsLoop_terminates t (.vstr tg) _ _ _ ?_)
                unfold bfsMeasure
                have hle1 : ((allEndpointVals t).toFinset \
                    (([Val.vstr s] : List Val).toFinset)).card ≤
                    (allEndpointVals t).toFinset.card :=
                  Finset.card_le_card Finset.sdiff_subset
                have hle2 : (allEndpointVals t).toFinset.card ≤ (allEndpointVals t).length :=
                  List.toFinset_card_le _
                simp only [List.length_singleton]
                omega
          · have hf : device_names.contains tg = false := by
              cases hcv : device_names.contains tg with
              | false => rfl
              | true => exact absurd hcv htc
            have h2 : (!device_names.contains tg) = true := by
              rw [hf]
              rfl
            rw [h2] at hEq
            simp only [if_true] at hEq
            simp at hEq
        · have hf : device_names.contains s = false := by
            cases hcv : device_names.contains s with
            | false => rfl
            | true => exact absurd hcv hsc
          have h1 : (!device_names.contains s) = true := by
            rw [hf]
            rfl
          rw [h1] at hEq
          simp only [if_true] at hEq
          simp at hEq

section Unreachable

/-- Reachability stays inside any set closed under the induced
adjacency relation. -/
theorem reach_mem_closed {conns : List Val} {P : Val → Prop} {a b : Val}
    (hr : Reachable conns a b) (ha : P a)
    (hstep : ∀ x y, InducedAdj conns x y → P x → P y) : P b := by
  induction hr with
  | refl => exact ha
  | tail _ hadj ih => exact hstep _ _ hadj ih

/-- In the topology with the single connection A – B, device D is not
reachable from A. -/
theorem c6_not_reachable : ¬ Reachable [wConn ["A", "B"]] (.vstr "A") (.vstr "D") := by
  intro hre
  have hP : Val.vstr "D" = Val.vstr "A" ∨ Val.vstr "D" = Val.vstr "B" := by
    refine reach_mem_closed (P := fun v => v = Val.vstr "A" ∨ v = Val.vstr "B") hre
      (Or.inl rfl) ?_
    rintro x y ⟨hne, c, hc, hx, hy⟩ hPx
    rw [List.mem_singleton] at hc
    subst hc
    have hcdv : connDeviceVals (wConn ["A", "B"]) = [Val.vstr "A", Val.vstr "B"] := by decide
    rw [hcdv] at hy
    rcases List.mem_cons.mp hy with rfl | hy2
    · exact Or.inl rfl
    · rw [List.mem_singleton] at hy2
      subst hy2
      exact Or.inr rfl
  rcases hP with h | h
  · exact absurd h (by decide)
  · exact absurd h (by decide)

/-- Concrete topology for the C6 counterexample: declared devices A and
D, with one connection from A to the *undeclared* device B. -/
def c6Root : List (String × Val) :=
  [("name", .vstr "t"),
   ("devices", .vdict [("A", wDevCfg), ("D", wDevCfg)]),
   ("connections", .vlist [wConn ["A", "B"]])]

/-- C6 counterexample: A and D are distinct declared devices and D is
unreachable from A in the induced adjacency graph, yet
`verify_connectivity_path(A, D)` raises the `ValueError` "Device 'B'
not found in the topology" instead of returning `(False, [])`: the BFS
enqueues the undeclared endpoint device B and then calls
`get_connected_devices` on it.  The claim therefore fails on loaded
topologies with undeclared endpoint references. -/
theorem verify_connectivity_path_unreachable_raises :
    verify_connectivity_path (some (.vdict c6Root)) "A" "D" =
      .error (.deviceNotFound (.vstr "B")) ∧
    ("A" ∈ [("A", wDevCfg), ("D", wDevCfg)].map Prod.fst) ∧
    ("D" ∈ [("A", wDevCfg), ("D", wDevCfg)].map Prod.fst) ∧
    ("A" ≠ "D") ∧
    ¬ Reachable [wConn ["A", "B"]] (.vstr "A") (.vstr "D") :=
  ⟨rfl, by decide, by decide, by decide, c6_not_reachable⟩

/-- When no scanned neighbour is the target, the scan ends in the
continue state, and every new queue entry comes from a neighbour. -/
theorem bfsScan_no_target (tgt : Val) (path : List Val) :
    ∀ (ns visited : List Val) (queue : List (Val × List Val)),
    (∀ n ∈ ns, n ≠ tgt) →
    ∃ v' q', bfsScan tgt path ns visited queue = .inr (v', q') ∧
      ∀ qe ∈ q', qe ∈ queue ∨ ∃ n ∈ ns, qe = (n, path ++ [n]) := by
  intro ns
  induction ns with
  | nil =>
    intro visited queue hnt
    exact ⟨visited, queue, rfl, fun qe hqe => Or.inl hqe⟩
  | cons n ns ih =>
    intro visited queue hnt
    have hne : (n == tgt) = false := by
      have := hnt n (List.mem_cons_self _ _)
      simp [this]
    by_cases hv : visited.contains n = true
    · obtain ⟨v', q', hs, hq⟩ := ih visited queue (fun m hm => hnt m (List.mem_cons_of_mem _ hm))
      refine ⟨v', q', ?_, ?_⟩
      · rw [bfsScan, hne]
        simp only [Bool.false_eq_true, if_false]
        rw [if_pos hv]
        exact hs
      · intro qe hqe
        rcases hq qe hqe with hold | ⟨m, hm, rfl⟩
        · exact Or.inl hold
        · exact Or.inr ⟨m, List.mem_cons_of_mem _ hm, rfl⟩
    · obtain ⟨v', q', hs, hq⟩ := ih (visited ++ [n]) (queue ++ [(n, path ++ [n])])
        (fun m hm => hnt m (List.mem_cons_of_mem _ hm))
      refine ⟨v', q', ?_, ?_⟩
      · rw [bfsScan, hne]
        simp only [Bool.false_eq_true, if_false]
        rw [if_neg hv]
        exact hs
      · intro qe hqe
        rcases hq qe hqe with hold | ⟨m, hm, rfl⟩
        · rcases List.mem_append.mp hold with hold' | hnew
          · exact Or.inl hold'
          · rw [List.mem_singleton] at hnew
            exact Or.inr ⟨n, List.mem_cons_self _ _, hnew⟩
        · exact Or.inr ⟨m, List.mem_cons_of_mem _ hm, rfl⟩

/-- On a shaped topology whose truthy endpoint devices are declared, if
the target is unreachable from every device in the queue, the BFS loop
drains the queue and reports failure. -/
theorem bfsLoop_unreachable
    (root dkvs : List (String × Val)) (conns : List Val) (S T : String)
    (hdev : dictLookup root "devices" = some (.vdict dkvs))
    (hconn : dictLookup root "connections" = some (.vlist conns))
    (hshape : conns.all isShapedConnection = true)
    (hdecl : conns.all (connDevicesDeclared (dkvs.map Prod.fst)) = true)
    (hreach : ¬ Reachable conns (.vstr S) (.vstr T)) :
    ∀ (fuel : Nat) (queue : List (Val × List Val)) (visited : List Val),
    bfsMeasure ((allEndpointVals (.vdict root)).toFinset) queue visited < fuel →
    (∀ qe ∈ queue, (∃ k, qe.1 = Val.vstr k ∧ (dkvs.map Prod.fst).contains k = true) ∧
      Reachable conns (Val.vstr S) qe.1) →
    bfsLoop (some (.vdict root)) (.vstr T) fuel queue visited = some (.ok (false, [])) := by
  have hstr : conns.all connDevicesStrings = true := connDevicesDeclared_strings hdecl
  intro fuel
  induction fuel with
  | zero =>
    intro queue visited hμ hinv
    exact absurd hμ (by omega)
  | succ f ih =>
    intro queue visited hμ hinv
    cases queue with
    | nil => rfl
    | cons qe rest =>
      obtain ⟨cur, path⟩ := qe
      obtain ⟨⟨k, hcur, hk⟩, hrc⟩ := hinv (cur, path) (List.mem_cons_self _ _)
      simp only at hcur
      subst hcur
      obtain ⟨out, hout, hnodup, hchar⟩ :=
        get_connected_devices_spec root dkvs conns k hdev hk hconn hshape hstr
      have hfacts : ∀ n ∈ out, InducedAdj conns (Val.vstr k) n ∧ pyTruthy n = true := by
        intro n hn
        obtain ⟨ht, hne, c, hcm, hkc, hnc⟩ := (hchar n).mp hn
        exact ⟨⟨fun he => hne he.symm, c, hcm, hkc, hnc⟩, ht⟩
      have hnt : ∀ n ∈ out, n ≠ Val.vstr T := by
        intro n hn hnT
        refine hreach ?_
        rw [← hnT]
        exact Relation.ReflTransGen.tail hrc (hfacts n hn).1
      obtain ⟨v', q', hs, hq⟩ := bfsScan_no_target (Val.vstr T) path out visited rest hnt
      rw [bfsLoop]
      simp only [hout, hs]
      refine ih q' v' ?_ ?_
      · have hsub : ∀ n ∈ out, n ∈ ((allEndpointVals (Val.vdict root)).toFinset) := by
          intro n hn
          rw [List.mem_toFinset]
          exact get_connected_devices_subset hout n hn
        have hpres := bfsScan_measure (Val.vstr T) path _ out visited rest hsub hs
        unfold bfsMeasure at hμ ⊢
        simp only [List.length_cons] at hμ
        omega
      · intro qe' hqe'
        rcases hq qe' hqe' with hold | ⟨n, hn, rfl⟩
        · exact hinv qe' (List.mem_cons_of_mem _ hold)
        · obtain ⟨hadj, ht⟩ := hfacts n hn
          obtain ⟨_, hne2, c, hcm, hkc, hnc⟩ := (hchar n).mp hn
          have hdecl' : ∃ k', n = Val.vstr k' ∧ (dkvs.map Prod.fst).contains k' = true := by
            rw [List.all_eq_true] at hdecl
            have hcd := hdecl c hcm
            rw [connDevicesDeclared, List.all_eq_true] at hcd
            have hn' := hcd n hnc
            rw [Bool.or_eq_true] at hn'
            rcases hn' with hf | hm
            · rw [ht] at hf
              simp at hf
            · cases n with
              | vstr s => exact ⟨s, rfl, hm⟩
              | vnull => simp at hm
              | vbool b => simp at hm
              | vint i => simp at hm
              | vlist xs => simp at hm
              | vdict kv => simp at hm
          exact ⟨hdecl', Relation.ReflTransGen.tail hrc hadj⟩

end Unreachable

/-- C6 (amended): on a loaded topology whose connections are shaped
mappings and whose truthy endpoint `device` values all name declared
devices (as any topology passing validation satisfies), for every pair
of distinct declared devices with no path between them in the induced
adjacency graph, `verify_connectivity_path` returns `(False, [])`
normally rather than raising.  On topologies with undeclared endpoint
references the search can instead raise the unknown-device `ValueError`
when it reaches one. -/
theorem verify_connectivity_path_unreachable_false
    (root dkvs : List (String × Val)) (conns : List Val) (S T : String)
    (hdev : dictLookup root "devices" = some (.vdict dkvs))
    (hconn : dictLookup root "connections" = some (.vlist conns))
    (hshape : conns.all isShapedConnection = true)
    (hdecl : conns.all (connDevicesDeclared (dkvs.map Prod.fst)) = true)
    (hS : (dkvs.map Prod.fst).contains S = true)
    (hT : (dkvs.map Prod.fst).contains T = true)
    (hST : S ≠ T)
    (hreach : ¬ Reachable conns (.vstr S) (.vstr T)) :
    verify_connectivity_path (some (.vdict root)) S T = .ok (false, []) := by
  have htruthy : pyTruthy (.vdict root) = true := by
    have hne := dictLookup_ne_nil hdev
    cases root with
    | nil => exact absurd rfl hne
    | cons p rest => simp [pyTruthy]
  rw [verify_connectivity_path]
  have hreq : requireLoaded (some (.vdict root)) = .ok (.vdict root) := by
    simp [requireLoaded, htruthy]
  simp only [hreq, pyGetD, hdev, Option.getD_some, dictKeys]
  have h1 : (!(dkvs.map Prod.fst).contains S) = false := by
    rw [hS]
    rfl
  have h2 : (!(dkvs.map Prod.fst).contains T) = false := by
    rw [hT]
    rfl
  rw [h1, h2]
  simp only [Bool.false_eq_true, if_false]
  have hst : (S == T) = false := by
    simp [hST]
  rw [hst]
  simp only [Bool.false_eq_true, if_false]
  have hloop := bfsLoop_unreachable root dkvs conns S T hdev hconn hshape hdecl hreach
    ((allEndpointVals (.vdict root)).length + 2)
    [(Val.vstr S, [Val.vstr S])] [Val.vstr S] ?_ ?_
  · rw [hloop]
  · unfold bfsMeasure
    have hle1 : ((allEndpointVals (Val.vdict root)).toFinset \
        (([Val.vstr S] : List Val).toFinset)).card ≤
        (allEndpointVals (Val.vdict root)).toFinset.card :=
      Finset.card_le_card Finset.sdiff_subset
    have hle2 : (allEndpointVals (Val.vdict root)).toFinset.card ≤
        (allEndpointVals (Val.vdict root)).length :=
      List.toFinset_card_le _
    simp only [List.length_singleton]
    omega
  · intro qe hqe
    rw [List.mem_singleton] at hqe
    subst hqe
    exact ⟨⟨S, rfl, hS⟩, Relation.ReflTransGen.refl⟩

/-- Witness for C6 (amended): four declared devices with only A – B
connected; D is unreachable from A and the query returns
`(False, [])`. -/
theorem verify_connectivity_path_unreachable_false_witness :
    dictLookup ([("name", Val.vstr "t"),
      ("devices", Val.vdict [("A", wDevCfg), ("B", wDevCfg), ("C", wDevCfg), ("D", wDevCfg)]),
      ("connections", Val.vlist [wConn ["A", "B"]])]) "devices" =
      some (.vdict [("A", wDevCfg), ("B", wDevCfg), ("C", wDevCfg), ("D", wDevCfg)]) ∧
    ¬ Reachable [wConn ["A", "B"]] (.vstr "A") (.vstr "D") ∧
    verify_connectivity_path (some (.vdict [("name", Val.vstr "t"),
      ("devices", Val.vdict [("A", wDevCfg), ("B", wDevCfg), ("C", wDevCfg), ("D", wDevCfg)]),
      ("connections", Val.vlist [wConn ["A", "B"]])])) "A" "D" = .ok (false, []) :=
  ⟨by decide, c6_not_reachable,
   verify_connectivity_path_unreachable_false
     [("name", Val.vstr "t"),
      ("devices", Val.vdict [("A", wDevCfg), ("B", wDevCfg), ("C", wDevCfg), ("D", wDevCfg)]),
      ("connections", Val.vlist [wConn ["A", "B"]])]
     [("A", wDevCfg), ("B", wDevCfg), ("C", wDevCfg), ("D", wDevCfg)]
     [wConn ["A", "B"]] "A" "D"
     (by decide) (by decide) (by decide) (by decide) (by decide) (by decide) (by decide)
     c6_not_reachable⟩

/-- C8: `render_template` replaces, for every (key, value) pair of the
variables mapping in insertion order, every literal occurrence of the
placeholder `\x7bkey\x7d` in the template with `str(value)`, and
returns the result — exactly the substitution `renderSpec` describes;
in particular rendering `"\x7bx\x7d-\x7by\x7d"` with `x = "foo"` yields
`"foo-\x7by\x7d"`, the unreplaced `y` being only reported in the
warning list, not removed and not an error. -/
theorem render_template_spec :
    (∀ (template : String) (vars : List (String × Val)),
      (render_template template vars).1 = renderSpec template vars) ∧
    render_template "\x7bx\x7d-\x7by\x7d" [("x", .vstr "foo")] = ("foo-\x7by\x7d", ["y"]) :=
  ⟨fun _ _ => rfl, rfl⟩

/-- Parser stub: the external YAML parser returning `None`, as
`yaml.safe_load` does on an empty document. -/
def parseNull : String → Except String Val := fun _ => .ok .vnull

/-- Parser stub rejecting every document. -/
def parseFail : String → Except String Val := fun _ => .error "syntax error"

/-- Single-file filesystem stub holding an empty `lab.yaml`. -/
def fsEmptyYaml : String → Option String := fun p => if p == "lab.yaml" then some "" else none

/-- A previously loaded topology. -/
def oldTopo : Val := .vdict [("name", .vstr "old")]

/-- C9 counterexample: loading an empty YAML file (which parses to
`None`) first assigns `self.topology = None` and then raises an
uncaught `AttributeError` from the success-logging line
`len(self.topology.get('devices', []))` — a failed load that clobbers
the previously held topology. -/
theorem load_topology_clobbers_on_null_parse :
    load_topology parseNull parseFail fsEmptyYaml (some oldTopo) "lab.yaml" =
      (some .vnull, .error .attributeError) ∧
    some Val.vnull ≠ some oldTopo :=
  ⟨rfl, by decide⟩

/-- C9 (amended): a load failing with one of the three documented
failure modes — file absent, unsupported extension, or YAML/JSON parse
error — leaves the held topology unchanged; but a file parsing to a
non-dict value (e.g. an empty YAML document) replaces the topology
*before* the uncaught `AttributeError`/`TypeError` from the
success-logging line, so such a failed load does clobber it. -/
theorem load_topology_documented_failures_keep_state
    (parseYaml parseJson : String → Except String Val) (fs : String → Option String)
    (topology : Option Val) (path : String) (e : LoadError)
    (herr : (load_topology parseYaml parseJson fs topology path).2 = .error e)
    (hA : e ≠ .attributeError) (hT : e ≠ .typeError) :
    (load_topology parseYaml parseJson fs topology path).1 = topology := by
  rw [load_topology] at herr ⊢
  cases hf : fs path with
  | none => simp
  | some content =>
    simp only [hf] at herr ⊢
    by_cases hy : (strToLower (splitextExt path) == ".yaml" ||
        strToLower (splitextExt path) == ".yml") = true
    · rw [if_pos hy] at herr ⊢
      cases hp : parseYaml content with
      | error msg => simp [hp]
      | ok v =>
        simp only [hp] at herr ⊢
        cases v with
        | vdict kvs =>
          simp only [postParseLog] at herr ⊢
          cases hl : pyLen ((dictLookup kvs "devices").getD (.vlist [])) with
          | some n =>
            simp only [hl] at herr
            simp at herr
          | none =>
            simp only [hl] at herr
            exact absurd (Except.error.inj herr).symm hT
        | vnull => exact absurd (Except.error.inj herr).symm hA
        | vbool b => exact absurd (Except.error.inj herr).symm hA
        | vint n => exact absurd (Except.error.inj herr).symm hA
        | vstr s => exact absurd (Except.error.inj herr).symm hA
        | vlist xs => exact absurd (Except.error.inj herr).symm hA
    · rw [if_neg hy] at herr ⊢
      by_cases hj : (strToLower (splitextExt path) == ".json") = true
      · rw [if_pos hj] at herr ⊢
        cases hp : parseJson content with
        | error msg => simp [hp]
        | ok v =>
          simp only [hp] at herr ⊢
          cases v with
          | vdict kvs =>
            simp only [postParseLog] at herr ⊢
            cases hl : pyLen ((dictLookup kvs "devices").getD (.vlist [])) with
            | some n =>
              simp only [hl] at herr
              simp at herr
            | none =>
              simp only [hl] at herr
              exact absurd (Except.error.inj herr).symm hT
          | vnull => exact absurd (Except.error.inj herr).symm hA
          | vbool b => exact absurd (Except.error.inj herr).symm hA
          | vint n => exact absurd (Except.error.inj herr).symm hA
          | vstr s => exact absurd (Except.error.inj herr).symm hA
          | vlist xs => exact absurd (Except.error.inj herr).symm hA
      · rw [if_neg hj]

/-- Witness for C9 (amended): loading a missing file fails with
`FileNotFoundError` and keeps the old topology. -/
theorem load_topology_documented_failures_keep_state_witness :
    ((load_topology parseNull parseFail (fun _ => none) (some oldTopo) "lab.yaml").2 =
      .error (.fileNotFound "lab.yaml")) ∧
    (LoadError.fileNotFound "lab.yaml" ≠ .attributeError) ∧
    (LoadError.fileNotFound "lab.yaml" ≠ .typeError) ∧
    (load_topology parseNull parseFail (fun _ => none) (some oldTopo) "lab.yaml").1 =
      some oldTopo :=
  ⟨rfl, by decide, by decide,
   load_topology_documented_failures_keep_state parseNull parseFail (fun _ => none)
     (some oldTopo) "lab.yaml" (.fileNotFound "lab.yaml") rfl (by decide) (by decide)⟩

end AutoNetLab
